import Mathlib

/-!
# Verification of the Guardrails violation-detection / policy-enforcement / audit pipeline

This file is a shallow embedding, in Lean, of the core of the Guardrails
backend (`src/backend/app`): the pattern rule engine
(`rules/security_rules.py`), the policy engine (`policy/policy_engine.py`),
the audit ledger (`audit/audit_logger.py`), the token-issuance path, and the
`/api/analyze` request flow of `main.py`.  Pure Python functions become Lean
functions; the mutable engine/logger objects become explicit state records
threaded through the operations.  The enums and the `Violation` dataclass
live in `app/models.py`, which is imported everywhere but is not part of the
source tree we were given; those few type declarations are modelled from the
specification (their member names and `.value` strings are all visible at
their use sites in the sources we do have).

Theorems about the claims are at the end of the file, after all definitions.
-/

namespace Guardrails

/-! ## Data model

Modelled from the spec (`app/models.py` is not in the source tree):
`SeverityLevel` (ordered enum info < low < medium < high < critical),
`RuleCategory` (security, compliance, code_quality, license, performance),
`EnforcementMode` (advisory, warning, blocking), and the `Violation`
dataclass.  The `.value` strings are exactly the ones compared against in
`policy_engine.py` and `main.py`.
-/

inductive SeverityLevel where
  | info
  | low
  | medium
  | high
  | critical
deriving DecidableEq, Repr

def SeverityLevel.value : SeverityLevel → String
  | .info => "info"
  | .low => "low"
  | .medium => "medium"
  | .high => "high"
  | .critical => "critical"

inductive RuleCategory where
  | security
  | compliance
  | code_quality
  | license
  | performance
deriving DecidableEq, Repr

def RuleCategory.value : RuleCategory → String
  | .security => "security"
  | .compliance => "compliance"
  | .code_quality => "code_quality"
  | .license => "license"
  | .performance => "performance"

inductive EnforcementMode where
  | advisory
  | warning
  | blocking
deriving DecidableEq, Repr

def EnforcementMode.value : EnforcementMode → String
  | .advisory => "advisory"
  | .warning => "warning"
  | .blocking => "blocking"

/-- One detected issue instance (the `Violation` dataclass of `app/models.py`,
modelled from the spec, §3).  `line_number` is 1-based. -/
structure Violation where
  rule_id : String
  rule_name : String
  category : RuleCategory
  severity : SeverityLevel
  message : String
  file_path : String
  line_number : Nat
  line_content : String
  cwe_id : String
  owasp_category : String
  is_copilot_generated : Bool := false
  suggested_fix : Option String := none
deriving DecidableEq, Repr

/-! ## Policy engine (`policy/policy_engine.py`)

`PolicyEngine` holds a dict of registered policies plus the default policy
built at `__init__`.  The Python dict is embedded as an association list with
Python-dict insertion semantics (assignment replaces an existing binding in
place, otherwise appends).  `custom_rules` (an opaque, never-read dict) is
omitted from the `Policy` record.
-/

/-- The `Policy` class of `policy_engine.py` (defaults as in its
`__init__`). -/
structure Policy where
  name : String
  enforcement_mode : EnforcementMode := .warning
  block_on_critical : Bool := true
  block_on_high : Bool := false
  enable_security_checks : Bool := true
  enable_compliance_checks : Bool := true
  enable_quality_checks : Bool := false
  allowed_licenses : List String := ["MIT", "Apache-2.0", "GPL-3.0", "BSD-3-Clause"]
deriving DecidableEq, Repr

/-- The `EnforcementResult` class of `policy_engine.py` (fields as in its
`__init__`). -/
structure EnforcementResult where
  violations : List Violation := []
  filtered_violations : List Violation := []
  should_block : Bool := false
  block_reason : Option String := none
  enforcement_mode : EnforcementMode := .warning
  override_token : Option String := none
deriving DecidableEq, Repr

/-- State of a `PolicyEngine` object: the `self.policies` dict and
`self.default_policy`. -/
structure PolicyEngine where
  policies : List (String × Policy)
  default_policy : Policy
deriving DecidableEq, Repr

/-- `key in d` for the embedded Python dict. -/
def dictContains (d : List (String × Policy)) (key : String) : Bool :=
  d.any (fun p => p.1 == key)

/-- `d[key]`, defined when `dictContains` holds; first binding wins (keys are
unique under `dictSet`, so this agrees with the Python dict). -/
def dictGet (d : List (String × Policy)) (key : String) : Option Policy :=
  (d.find? (fun p => p.1 == key)).map (fun p => p.2)

/-- `d[key] = v` with Python-dict semantics: replace in place if the key is
bound, else append. -/
def dictSet (d : List (String × Policy)) (key : String) (v : Policy) :
    List (String × Policy) :=
  if dictContains d key then
    d.map (fun p => if p.1 == key then (key, v) else p)
  else
    d ++ [(key, v)]

/-- `PolicyEngine._create_default_policy`. -/
def create_default_policy : Policy :=
  { name := "default"
    enforcement_mode := EnforcementMode.warning
    block_on_critical := true
    block_on_high := false
    enable_security_checks := true
    enable_compliance_checks := true
    enable_quality_checks := false
    allowed_licenses := ["MIT", "Apache-2.0", "GPL-3.0", "BSD-3-Clause"] }

/-- `PolicyEngine.__init__`: empty registered-policies dict, default policy
constructed once. -/
def mkPolicyEngine : PolicyEngine :=
  { policies := [], default_policy := create_default_policy }

/-- `PolicyEngine.register_policy`: `self.policies[policy.name] = policy`. -/
def register_policy (e : PolicyEngine) (policy : Policy) : PolicyEngine :=
  { e with policies := dictSet e.policies policy.name policy }

/-- `repo_name.split("/")[0]`: the characters before the first slash (the
whole string when there is none — Python `str.split` with a separator never
returns an empty list). -/
def orgName (repo_name : String) : String :=
  String.mk (repo_name.toList.takeWhile (fun c => c != '/'))

/-- `PolicyEngine.get_policy`: exact repo match, then organization match,
then the default policy. -/
def get_policy (e : PolicyEngine) (repo_name : String) : Policy :=
  if dictContains e.policies repo_name then
    (dictGet e.policies repo_name).getD e.default_policy
  else if dictContains e.policies (orgName repo_name) then
    (dictGet e.policies (orgName repo_name)).getD e.default_policy
  else
    e.default_policy

/-- The category filter of `PolicyEngine.enforce_policy`: a violation is
moved to `filtered_violations` when its category's toggle is disabled.  The
string comparisons are the ones in the source. -/
def category_filtered (policy : Policy) (v : Violation) : Bool :=
  (v.category.value == "security" && !policy.enable_security_checks)
  || (v.category.value == "compliance" && !policy.enable_compliance_checks)
  || (v.category.value == "code_quality" && !policy.enable_quality_checks)

/-- The partition loop of `enforce_policy`: walks the raw violations in
order, appending each either to the kept list or to the filtered list. -/
def partitionViolations (policy : Policy) :
    List Violation → List Violation × List Violation
  | [] => ([], [])
  | v :: rest =>
    let (kept, flt) := partitionViolations policy rest
    if category_filtered policy v then (kept, v :: flt) else (v :: kept, flt)

/-- `PolicyEngine.enforce_policy`. -/
def enforce_policy (e : PolicyEngine) (violations : List Violation)
    (repo_name : String) : EnforcementResult :=
  let policy := get_policy e repo_name
  let (kept, flt) := partitionViolations policy violations
  let critical_count :=
    (kept.filter (fun v => v.severity == SeverityLevel.critical)).length
  let high_count :=
    (kept.filter (fun v => v.severity == SeverityLevel.high)).length
  let base : EnforcementResult :=
    { violations := kept
      filtered_violations := flt
      enforcement_mode := policy.enforcement_mode }
  let afterCounts : EnforcementResult :=
    if policy.block_on_critical && decide (0 < critical_count) then
      { base with
        should_block := true
        block_reason := some ("Blocking due to " ++ toString critical_count
          ++ " critical violation(s)") }
    else if policy.block_on_high && decide (0 < high_count) then
      { base with
        should_block := true
        block_reason := some ("Blocking due to " ++ toString high_count
          ++ " high severity violation(s)") }
    else base
  let license_violations :=
    kept.filter (fun v => v.category.value == "license")
  if decide (0 < license_violations.length)
      && policy.enforcement_mode == EnforcementMode.blocking then
    { afterCounts with
      should_block := true
      block_reason := some ("License violations detected: "
        ++ toString license_violations.length) }
  else afterCounts

/-! ## JSON text (Python `json` module, serialization side)

The policy engine serializes the override-token payload with
`json.dumps(payload)` and the audit logger serializes events with
`json.dumps(d, indent=2)`.  The `json` module is the Python standard
library, so its behaviour is embedded here on the value shapes the
repository actually writes: objects, arrays, strings, integers, booleans and
null, with the default `ensure_ascii=True` escaping.
-/

/-- Lowercase hexadecimal digit, as Python's `\uXXXX` escapes use. -/
def hexDigitChar : Nat → Char
  | 0 => '0' | 1 => '1' | 2 => '2' | 3 => '3' | 4 => '4'
  | 5 => '5' | 6 => '6' | 7 => '7' | 8 => '8' | 9 => '9'
  | 10 => 'a' | 11 => 'b' | 12 => 'c' | 13 => 'd' | 14 => 'e'
  | _ => 'f'

/-- Four lowercase hex digits of `n % 65536`. -/
def hex4 (n : Nat) : List Char :=
  [hexDigitChar (n / 4096 % 16), hexDigitChar (n / 256 % 16),
   hexDigitChar (n / 16 % 16), hexDigitChar (n % 16)]

/-- Escape one character as Python `json.dumps` does with the default
`ensure_ascii=True`: the two-character shortcuts, `\u00xx` for other control
characters, printable ASCII verbatim, `\uxxxx` for non-ASCII and a surrogate
pair for characters beyond the basic multilingual plane. -/
def jesc (c : Char) : List Char :=
  if c = '"' then ['\\', '"']
  else if c = '\\' then ['\\', '\\']
  else if c = '\n' then ['\\', 'n']
  else if c = '\r' then ['\\', 'r']
  else if c = '\t' then ['\\', 't']
  else if c.toNat = 8 then ['\\', 'b']
  else if c.toNat = 12 then ['\\', 'f']
  else if c.toNat < 32 then '\\' :: 'u' :: hex4 c.toNat
  else if c.toNat ≤ 126 then [c]
  else if c.toNat ≤ 65535 then '\\' :: 'u' :: hex4 c.toNat
  else
    let v := c.toNat - 65536
    ('\\' :: 'u' :: hex4 (55296 + v / 1024)) ++ ('\\' :: 'u' :: hex4 (56320 + v % 1024))

/-- A JSON string literal: `"` + escaped characters + `"`. -/
def jstr (s : String) : List Char :=
  '"' :: (s.toList.flatMap jesc) ++ ['"']

/-- `json.dumps` of a flat object whose values are all strings, with the
default separators `(", ", ": ")` — the exact shape of the override-token
payload dict of `create_override_token`. -/
def json_dumps_flat (fields : List (String × String)) : List Char :=
  match fields with
  | [] => ['{', '}']
  | _ =>
    '{' :: (List.intercalate [',', ' ']
      (fields.map (fun kv => jstr kv.1 ++ ':' :: ' ' :: jstr kv.2))) ++ ['}']

/-! ## UTF-8 and SHA-256 (Python `str.encode` and `hashlib.sha256`)

`create_override_token` hashes `payload_str.encode()` with
`hashlib.sha256(...).hexdigest()`.  Both are standard-library calls; they
are embedded here in full: UTF-8 encoding of the Unicode scalar values, and
FIPS 180-4 SHA-256 over the byte list, rendered as 64 lowercase hex
characters.  All 32-bit machine words are `Nat`s kept below `2^32`
explicitly. -/

/-- UTF-8 bytes of one Unicode scalar value. -/
def utf8Char (c : Char) : List Nat :=
  let n := c.toNat
  if n < 128 then [n]
  else if n < 2048 then [192 + n / 64, 128 + n % 64]
  else if n < 65536 then [224 + n / 4096, 128 + n / 64 % 64, 128 + n % 64]
  else [240 + n / 262144, 128 + n / 4096 % 64, 128 + n / 64 % 64, 128 + n % 64]

/-- `s.encode()`: UTF-8 bytes of a string. -/
def utf8Encode (s : String) : List Nat :=
  s.toList.flatMap utf8Char

/-- `2^32`. -/
def M32 : Nat := 4294967296

/-- Addition modulo `2^32`. -/
def add32 (a b : Nat) : Nat := (a + b) % M32

/-- Right rotation of a 32-bit word. -/
def rotr32 (x k : Nat) : Nat :=
  ((x >>> k) ||| (x <<< (32 - k))) % M32

/-- SHA-256 message-schedule sigma-0. -/
def ssig0 (x : Nat) : Nat := rotr32 x 7 ^^^ rotr32 x 18 ^^^ (x >>> 3)

/-- SHA-256 message-schedule sigma-1. -/
def ssig1 (x : Nat) : Nat := rotr32 x 17 ^^^ rotr32 x 19 ^^^ (x >>> 10)

/-- SHA-256 compression Sigma-0. -/
def bsig0 (x : Nat) : Nat := rotr32 x 2 ^^^ rotr32 x 13 ^^^ rotr32 x 22

/-- SHA-256 compression Sigma-1. -/
def bsig1 (x : Nat) : Nat := rotr32 x 6 ^^^ rotr32 x 11 ^^^ rotr32 x 25

/-- SHA-256 choice function (`not x` is the 32-bit complement). -/
def sha256ch (x y z : Nat) : Nat := (x &&& y) ^^^ ((M32 - 1 - x % M32) &&& z)

/-- SHA-256 majority function. -/
def sha256maj (x y z : Nat) : Nat := (x &&& y) ^^^ (x &&& z) ^^^ (y &&& z)

/-- The 64 SHA-256 round constants of FIPS 180-4 (in decimal). -/
def sha256K : List Nat :=
  [1116352408, 1899447441, 3049323471, 3921009573, 961987163, 1508970993,
   2453635748, 2870763221, 3624381080, 310598401, 607225278, 1426881987,
   1925078388, 2162078206, 2614888103, 3248222580, 3835390401, 4022224774,
   264347078, 604807628, 770255983, 1249150122, 1555081692, 1996064986,
   2554220882, 2821834349, 2952996808, 3210313671, 3336571891, 3584528711,
   113926993, 338241895, 666307205, 773529912, 1294757372, 1396182291,
   1695183700, 1986661051, 2177026350, 2456956037, 2730485921, 2820302411,
   3259730800, 3345764771, 3516065817, 3600352804, 4094571909, 275423344,
   430227734, 506948616, 659060556, 883997877, 958139571, 1322822218,
   1537002063, 1747873779, 1955562222, 2024104815, 2227730452, 2361852424,
   2428436474, 2756734187, 3204031479, 3329325298]

/-- The SHA-256 running hash, eight 32-bit words. -/
structure Sha256State where
  h0 : Nat
  h1 : Nat
  h2 : Nat
  h3 : Nat
  h4 : Nat
  h5 : Nat
  h6 : Nat
  h7 : Nat

/-- The SHA-256 initial hash value of FIPS 180-4 (in decimal). -/
def sha256init : Sha256State :=
  { h0 := 1779033703, h1 := 3144134277, h2 := 1013904242, h3 := 2773480762,
    h4 := 1359893119, h5 := 2600822924, h6 := 528734635, h7 := 1541459225 }

/-- SHA-256 padding: append `0x80`, zero bytes to 56 mod 64, then the
big-endian 64-bit bit length. -/
def sha256pad (msg : List Nat) : List Nat :=
  let len := msg.length
  let bitlen := 8 * len
  let zeros := (64 - ((len + 9) % 64)) % 64
  msg ++ [128] ++ List.replicate zeros 0 ++
    [bitlen / 72057594037927936 % 256, bitlen / 281474976710656 % 256,
     bitlen / 1099511627776 % 256, bitlen / 4294967296 % 256,
     bitlen / 16777216 % 256, bitlen / 65536 % 256,
     bitlen / 256 % 256, bitlen % 256]

/-- Split a byte list into 64-byte chunks (fuel-driven; the fuel passed in
is always sufficient). -/
def toChunks : Nat → List Nat → List (List Nat)
  | 0, _ => []
  | _, [] => []
  | fuel + 1, l => l.take 64 :: toChunks fuel (l.drop 64)

/-- The first 16 schedule words: big-endian 32-bit words of one chunk. -/
def chunkWords (chunk : List Nat) : List Nat :=
  (List.range 16).map (fun i =>
    ((chunk.getD (4 * i) 0 * 256 + chunk.getD (4 * i + 1) 0) * 256
      + chunk.getD (4 * i + 2) 0) * 256 + chunk.getD (4 * i + 3) 0)

/-- Extend the 16 schedule words to 64
(`w[i] = ssig1 w[i-2] + w[i-7] + ssig0 w[i-15] + w[i-16]` mod `2^32`). -/
def extendSchedule : Nat → List Nat → List Nat
  | 0, w => w
  | fuel + 1, w =>
    if 64 ≤ w.length then w
    else
      let i := w.length
      let nw := add32 (add32 (ssig1 (w.getD (i - 2) 0)) (w.getD (i - 7) 0))
        (add32 (ssig0 (w.getD (i - 15) 0)) (w.getD (i - 16) 0))
      extendSchedule fuel (w ++ [nw])

/-- One SHA-256 round on the working variables `(a,b,c,d,e,f,g,h)`. -/
def sha256round (s : Sha256State) (k w : Nat) : Sha256State :=
  let t1 := add32 (add32 (add32 s.h7 (bsig1 s.h4)) (sha256ch s.h4 s.h5 s.h6))
    (add32 k w)
  let t2 := add32 (bsig0 s.h0) (sha256maj s.h0 s.h1 s.h2)
  { h0 := add32 t1 t2, h1 := s.h0, h2 := s.h1, h3 := s.h2,
    h4 := add32 s.h3 t1, h5 := s.h4, h6 := s.h5, h7 := s.h6 }

/-- Compress one 64-byte chunk into the running hash. -/
def sha256compress (st : Sha256State) (chunk : List Nat) : Sha256State :=
  let ws := extendSchedule 48 (chunkWords chunk)
  let f := (List.range 64).foldl
    (fun s i => sha256round s (sha256K.getD i 0) (ws.getD i 0)) st
  { h0 := add32 st.h0 f.h0, h1 := add32 st.h1 f.h1, h2 := add32 st.h2 f.h2,
    h3 := add32 st.h3 f.h3, h4 := add32 st.h4 f.h4, h5 := add32 st.h5 f.h5,
    h6 := add32 st.h6 f.h6, h7 := add32 st.h7 f.h7 }

/-- Eight lowercase hex characters of one 32-bit word. -/
def hex8 (w : Nat) : List Char :=
  [hexDigitChar (w / 268435456 % 16), hexDigitChar (w / 16777216 % 16),
   hexDigitChar (w / 1048576 % 16), hexDigitChar (w / 65536 % 16),
   hexDigitChar (w / 4096 % 16), hexDigitChar (w / 256 % 16),
   hexDigitChar (w / 16 % 16), hexDigitChar (w % 16)]

/-- `hashlib.sha256(bytes).hexdigest()`: the 64-character lowercase hex
digest. -/
def sha256hexdigest (msg : List Nat) : String :=
  let padded := sha256pad msg
  let final := (toChunks (padded.length + 1) padded).foldl sha256compress sha256init
  String.mk (hex8 final.h0 ++ hex8 final.h1 ++ hex8 final.h2 ++ hex8 final.h3
    ++ hex8 final.h4 ++ hex8 final.h5 ++ hex8 final.h6 ++ hex8 final.h7)

/-- `PolicyEngine.create_override_token`.  `datetime.utcnow().isoformat()`
and the 24-hour expiry are nondeterministic inputs of the Python code and
are passed in as the `timestamp` and `expires` strings. -/
def create_override_token (repo_name reason timestamp expires : String) : String :=
  let payload_str := String.mk (json_dumps_flat
    [("repo", repo_name), ("reason", reason),
     ("timestamp", timestamp), ("expires", expires)])
  sha256hexdigest (utf8Encode payload_str)

/-- `PolicyEngine.validate_override_token`: only `len(token) == 64` is
checked; the `repo_name` argument is ignored. -/
def validate_override_token (token : String) (_repo_name : String) : Bool :=
  token.length == 64

/-! ## Regular expressions (Python `re.search` with `re.IGNORECASE`)

`SecurityRuleEngine.scan_line` tests each pattern with
`re.search(pattern, line, re.IGNORECASE)`.  The pattern strings of
`security_rules.py` use only literals, character classes (with ranges and
negation), `.`, the escapes `\s` `\w` `\d` and escaped metacharacters,
grouping parentheses, and the quantifiers `*` `+` `?` `{n}` `{n,}`.  The
abstract syntax below covers exactly that; each pattern string of the source
is hand-compiled to a term (the original pattern is kept alongside each
table entry).  The matcher is a backtracking matcher in
continuation-passing style; a fuel argument bounds its recursion depth and
the fuel supplied by `research` is far beyond what any pattern of the tables
can consume on the lines scanned.
-/

/-- Abstract syntax of the needed regex fragment.  `cls neg ranges` is a
character class (`neg` for `[^...]`, each pair an inclusive range);
`rep r lo hi` covers `*` (`0, none`), `+` (`1, none`), `?` (`0, some 1`),
`{n}` (`n, some n`) and `{n,}` (`n, none`). -/
inductive RE where
  | char (c : Char)
  | dot
  | cls (neg : Bool) (ranges : List (Char × Char))
  | seq (a b : RE) : RE
  | rep (r : RE) (lo : Nat) (hi : Option Nat) : RE
deriving Repr

/-- Case-insensitive literal-character match (`re.IGNORECASE`). -/
def charIMatch (p c : Char) : Bool :=
  p == c || p.toLower == c.toLower

/-- Membership of `c` in the ranges of a class, up to case folding as
`re.IGNORECASE` applies it to classes. -/
def clsMatch (neg : Bool) (ranges : List (Char × Char)) (c : Char) : Bool :=
  let inR := fun (x : Char) => ranges.any (fun r => r.1 ≤ x && x ≤ r.2)
  let hit := inR c || inR c.toLower || inR c.toUpper
  if neg then !hit else hit

/-- Backtracking matcher: does `r` match a prefix of `cs`, continuing with
`k` on the rest?  Greedy quantifiers try the longer match first, as Python
does; the Boolean result (existence of a match) is what `re.search`'s
truthiness test observes.  `.` does not match a newline (no `re.DOTALL`). -/
def rmatch : Nat → RE → List Char → (List Char → Bool) → Bool
  | 0, _, _, _ => false
  | _ + 1, RE.char p, cs, k =>
    match cs with
    | [] => false
    | c :: rest => charIMatch p c && k rest
  | _ + 1, RE.dot, cs, k =>
    match cs with
    | [] => false
    | c :: rest => c != '\n' && k rest
  | _ + 1, RE.cls neg ranges, cs, k =>
    match cs with
    | [] => false
    | c :: rest => clsMatch neg ranges c && k rest
  | fuel + 1, RE.seq a b, cs, k =>
    rmatch fuel a cs (fun cs' => rmatch fuel b cs' k)
  | fuel + 1, RE.rep r lo hi, cs, k =>
    match lo with
    | l + 1 =>
      rmatch fuel r cs (fun cs' =>
        rmatch fuel (RE.rep r l (hi.map (fun h => h - 1))) cs' k)
    | 0 =>
      match hi with
      | some 0 => k cs
      | some (m + 1) =>
        rmatch fuel r cs (fun cs' => rmatch fuel (RE.rep r 0 (some m)) cs' k)
          || k cs
      | none =>
        rmatch fuel r cs (fun cs' => rmatch fuel (RE.rep r 0 none) cs' k)
          || k cs

/-- `re.search(pattern, line, re.IGNORECASE)` as a Boolean: the pattern
matches starting at some position of the line. -/
def research (r : RE) (line : String) : Bool :=
  let cs := line.toList
  (List.range (cs.length + 1)).any (fun i =>
    rmatch (200 * (cs.length + 50)) r (cs.drop i) (fun _ => true))

/-- Sequence a nonempty list of regexes. -/
def reCat (rs : List RE) : RE :=
  match rs with
  | [] => RE.rep RE.dot 0 (some 0)
  | r :: rest => rest.foldl RE.seq r

/-- Literal string. -/
def reLit (s : String) : RE := reCat (s.toList.map RE.char)

/-- `\s` (Python whitespace class: space, tab, newline, carriage return,
vertical tab, form feed). -/
def reWsp : RE :=
  RE.cls false [(' ', ' '), ('\t', '\t'), ('\n', '\n'), ('\r', '\r'),
    (Char.ofNat 11, Char.ofNat 11), (Char.ofNat 12, Char.ofNat 12)]

/-- `\w` (ASCII word characters; `re.UNICODE` extras are irrelevant to the
scanned ASCII sources). -/
def reWord : RE :=
  RE.cls false [('a', 'z'), ('A', 'Z'), ('0', '9'), ('_', '_')]

/-- `\s*`. -/
def ws0 : RE := RE.rep reWsp 0 none

/-- `\s+`. -/
def ws1 : RE := RE.rep reWsp 1 none

/-- `.*`. -/
def dotStar : RE := RE.rep RE.dot 0 none

/-- `['\"]`: a single or double quote. -/
def quoteCls : RE := RE.cls false [('\'', '\''), ('"', '"')]

/-- `[^'\"]`: anything but a quote. -/
def notQuoteCls : RE := RE.cls true [('\'', '\''), ('"', '"')]

/-- `[_-]?`. -/
def usDashOpt : RE := RE.rep (RE.cls false [('_', '_'), ('-', '-')]) 0 (some 1)

/-! ### The pattern tables of `SecurityRuleEngine`

Each entry is the hand-compiled form of one `(pattern, message)` pair, in
table order; the original pattern source is quoted in the comment above the
entry. -/

/-- `HARDCODED_SECRET_PATTERNS`. -/
def HARDCODED_SECRET_PATTERNS : List (RE × String) :=
  [ -- api[_-]?key\s*=\s*['\"]([^'\"]{8,})['\"]
    (reCat [reLit "api", usDashOpt, reLit "key", ws0, RE.char '=', ws0,
      quoteCls, RE.rep notQuoteCls 8 none, quoteCls],
     "Hardcoded API Key"),
    -- password\s*=\s*['\"]([^'\"]{8,})['\"]
    (reCat [reLit "password", ws0, RE.char '=', ws0, quoteCls,
      RE.rep notQuoteCls 8 none, quoteCls],
     "Hardcoded Password"),
    -- secret\s*=\s*['\"]([^'\"]{8,})['\"]
    (reCat [reLit "secret", ws0, RE.char '=', ws0, quoteCls,
      RE.rep notQuoteCls 8 none, quoteCls],
     "Hardcoded Secret"),
    -- token\s*=\s*['\"]([^'\"]{8,})['\"]
    (reCat [reLit "token", ws0, RE.char '=', ws0, quoteCls,
      RE.rep notQuoteCls 8 none, quoteCls],
     "Hardcoded Token"),
    -- (AKIA[0-9A-Z]{16})
    (reCat [reLit "AKIA", RE.rep (RE.cls false [('0', '9'), ('A', 'Z')]) 16 (some 16)],
     "AWS Access Key ID"),
    -- aws_secret_access_key\s*=\s*['\"]([^'\"]+)['\"]
    (reCat [reLit "aws_secret_access_key", ws0, RE.char '=', ws0, quoteCls,
      RE.rep notQuoteCls 1 none, quoteCls],
     "AWS Secret Key"),
    -- private[_-]?key\s*=\s*['\"]
    (reCat [reLit "private", usDashOpt, reLit "key", ws0, RE.char '=', ws0, quoteCls],
     "Hardcoded Private Key"),
    -- github[_-]?token\s*=\s*['\"]
    (reCat [reLit "github", usDashOpt, reLit "token", ws0, RE.char '=', ws0, quoteCls],
     "Hardcoded GitHub Token"),
    -- docker[_-]?password\s*=\s*['\"]
    (reCat [reLit "docker", usDashOpt, reLit "password", ws0, RE.char '=', ws0, quoteCls],
     "Hardcoded Docker Password"),
    -- database[_-]?url\s*=.*://.*:.*@
    (reCat [reLit "database", usDashOpt, reLit "url", ws0, RE.char '=', dotStar,
      reLit "://", dotStar, RE.char ':', dotStar, RE.char '@'],
     "Database credentials in connection string") ]

/-- `SQL_INJECTION_PATTERNS`. -/
def SQL_INJECTION_PATTERNS : List (RE × String) :=
  [ -- execute\s*\(\s*['\"].*\{.*\}.*['\"]
    (reCat [reLit "execute", ws0, RE.char '(', ws0, quoteCls, dotStar,
      RE.char (Char.ofNat 123), dotStar, RE.char (Char.ofNat 125), dotStar, quoteCls],
     "SQL Injection: String interpolation in query"),
    -- query\s*\(\s*f['\"].*\{.*\}.*['\"]
    (reCat [reLit "query", ws0, RE.char '(', ws0, RE.char 'f', quoteCls, dotStar,
      RE.char (Char.ofNat 123), dotStar, RE.char (Char.ofNat 125), dotStar, quoteCls],
     "SQL Injection: F-string in SQL query"),
    -- SELECT\s+.*\+\s*str\(
    (reCat [reLit "SELECT", ws1, dotStar, RE.char '+', ws0, reLit "str", RE.char '('],
     "SQL Injection: String concatenation in query"),
    -- \.format\s*\(\s*.*\)\s*\)
    (reCat [reLit ".format", ws0, RE.char '(', ws0, dotStar, RE.char ')', ws0, RE.char ')'],
     "SQL Injection: format() in SQL query"),
    -- execute.*\(\s*user_input
    (reCat [reLit "execute", dotStar, RE.char '(', ws0, reLit "user_input"],
     "SQL Injection: Direct user input in execute") ]

/-- `INSECURE_DESERIALIZATION_PATTERNS`. -/
def INSECURE_DESERIALIZATION_PATTERNS : List (RE × String) :=
  [ -- pickle\.loads\s*\(
    (reCat [reLit "pickle.loads", ws0, RE.char '('],
     "Insecure Deserialization: pickle.loads() with untrusted data"),
    -- json\.loads\s*\(\s*user_input
    (reCat [reLit "json.loads", ws0, RE.char '(', ws0, reLit "user_input"],
     "Insecure JSON deserialization of user input"),
    -- yaml\.load\s*\(\s*[^,]*\)
    (reCat [reLit "yaml.load", ws0, RE.char '(', ws0,
      RE.rep (RE.cls true [(',', ',')]) 0 none, RE.char ')'],
     "Insecure YAML deserialization: Missing Loader"),
    -- cPickle\.loads\s*\(
    (reCat [reLit "cPickle.loads", ws0, RE.char '('],
     "Insecure deserialization: cPickle.loads()"),
    -- marshal\.loads\s*\(
    (reCat [reLit "marshal.loads", ws0, RE.char '('],
     "Insecure deserialization: marshal.loads()") ]

/-- `UNSAFE_EXECUTION_PATTERNS`. -/
def UNSAFE_EXECUTION_PATTERNS : List (RE × String) :=
  [ -- eval\s*\(
    (reCat [reLit "eval", ws0, RE.char '('], "Unsafe Code Execution: eval()"),
    -- exec\s*\(
    (reCat [reLit "exec", ws0, RE.char '('], "Unsafe Code Execution: exec()"),
    -- subprocess\.call\s*\(\s*cmd\s*,\s*shell\s*=\s*True
    (reCat [reLit "subprocess.call", ws0, RE.char '(', ws0, reLit "cmd", ws0,
      RE.char ',', ws0, reLit "shell", ws0, RE.char '=', ws0, reLit "True"],
     "Unsafe Shell Execution"),
    -- subprocess\.Popen\s*\(.*shell\s*=\s*True
    (reCat [reLit "subprocess.Popen", ws0, RE.char '(', dotStar, reLit "shell",
      ws0, RE.char '=', ws0, reLit "True"],
     "Unsafe subprocess execution with shell"),
    -- os\.system\s*\(
    (reCat [reLit "os.system", ws0, RE.char '('],
     "Unsafe System Command Execution: os.system()"),
    -- os\.popen\s*\(
    (reCat [reLit "os.popen", ws0, RE.char '('],
     "Unsafe pipe execution: os.popen()") ]

/-- `WEAK_CRYPTO_PATTERNS`. -/
def WEAK_CRYPTO_PATTERNS : List (RE × String) :=
  [ -- hashlib\.md5\s*\(
    (reCat [reLit "hashlib.md5", ws0, RE.char '('],
     "Weak Cryptography: MD5 is insecure"),
    -- hashlib\.sha1\s*\(
    (reCat [reLit "hashlib.sha1", ws0, RE.char '('],
     "Weak Cryptography: SHA1 is deprecated"),
    -- DES\s*\(
    (reCat [reLit "DES", ws0, RE.char '('], "Weak Cryptography: DES is insecure"),
    -- RSA\.generate\s*\(\s*512
    (reCat [reLit "RSA.generate", ws0, RE.char '(', ws0, reLit "512"],
     "Weak Cryptography: RSA key size < 2048"),
    -- ECB
    (reLit "ECB", "Weak Cryptography: ECB mode is insecure") ]

/-- `INSECURE_HEADERS_PATTERNS`. -/
def INSECURE_HEADERS_PATTERNS : List (RE × String) :=
  [ -- X-Frame-Options.*ALLOW
    (reCat [reLit "X-Frame-Options", dotStar, reLit "ALLOW"],
     "Insecure Header: X-Frame-Options allows framing"),
    -- Strict-Transport-Security.*\s*=\s*0
    (reCat [reLit "Strict-Transport-Security", dotStar, ws0, RE.char '=', ws0,
      RE.char '0'],
     "Missing HSTS header"),
    -- X-Content-Type-Options.*nosniff
    (reCat [reLit "X-Content-Type-Options", dotStar, reLit "nosniff"],
     "Missing X-Content-Type-Options header") ]

/-- `UNSAFE_FILE_OPERATIONS_PATTERNS`. -/
def UNSAFE_FILE_OPERATIONS_PATTERNS : List (RE × String) :=
  [ -- open\s*\(\s*user_input
    (reCat [reLit "open", ws0, RE.char '(', ws0, reLit "user_input"],
     "Unsafe file operation with user input"),
    -- \.readlines\(\)
    (reLit ".readlines()",
     "Potential XXE vulnerability: Reading file without validation"),
    -- zipfile\.ZipFile\s*\(\s*user_input
    (reCat [reLit "zipfile.ZipFile", ws0, RE.char '(', ws0, reLit "user_input"],
     "Unsafe ZIP file handling") ]

/-- `INSECURE_RANDOM_PATTERNS`. -/
def INSECURE_RANDOM_PATTERNS : List (RE × String) :=
  [ -- random\.randint\s*\(
    (reCat [reLit "random.randint", ws0, RE.char '('],
     "Weak randomness: random module is not cryptographically secure"),
    -- random\.choice\s*\(
    (reCat [reLit "random.choice", ws0, RE.char '('],
     "Weak randomness: random module should not be used for security"),
    -- random\.seed\s*\(\s*['\"]
    (reCat [reLit "random.seed", ws0, RE.char '(', ws0, quoteCls],
     "Weak randomness: seeding with predictable value") ]

/-- `COMPLIANCE_PATTERNS`. -/
def COMPLIANCE_PATTERNS : List (RE × String) :=
  [ -- TODO.*SECURITY
    (reCat [reLit "TODO", dotStar, reLit "SECURITY"],
     "Security TODO found - needs resolution"),
    -- FIXME.*SECURITY
    (reCat [reLit "FIXME", dotStar, reLit "SECURITY"],
     "Security FIXME found - needs resolution"),
    -- HACK.*SECURITY
    (reCat [reLit "HACK", dotStar, reLit "SECURITY"],
     "Security HACK found - needs immediate resolution"),
    -- BUG.*SECURITY
    (reCat [reLit "BUG", dotStar, reLit "SECURITY"],
     "Security BUG found - needs immediate resolution") ]

/-- `LOGGING_PATTERNS`. -/
def LOGGING_PATTERNS : List (RE × String) :=
  [ -- print\s*\(\s*.*password
    (reCat [reLit "print", ws0, RE.char '(', ws0, dotStar, reLit "password"],
     "Logging potential sensitive data: password"),
    -- print\s*\(\s*.*token
    (reCat [reLit "print", ws0, RE.char '(', ws0, dotStar, reLit "token"],
     "Logging potential sensitive data: token"),
    -- print\s*\(\s*.*secret
    (reCat [reLit "print", ws0, RE.char '(', ws0, dotStar, reLit "secret"],
     "Logging potential sensitive data: secret"),
    -- print\s*\(\s*.*key
    (reCat [reLit "print", ws0, RE.char '(', ws0, dotStar, reLit "key"],
     "Logging potential sensitive data: key") ]

/-- `DEPENDENCY_PATTERNS`. -/
def DEPENDENCY_PATTERNS : List (RE × String) :=
  [ -- requests\.get\s*\(\s*url\s*,\s*verify\s*=\s*False
    (reCat [reLit "requests.get", ws0, RE.char '(', ws0, reLit "url", ws0,
      RE.char ',', ws0, reLit "verify", ws0, RE.char '=', ws0, reLit "False"],
     "Insecure HTTPS: SSL verification disabled"),
    -- urllib\.urlopen\s*\(\s*url\s*\)
    (reCat [reLit "urllib.urlopen", ws0, RE.char '(', ws0, reLit "url", ws0,
      RE.char ')'],
     "Deprecated urllib usage") ]

/-- `PERFORMANCE_PATTERNS`. -/
def PERFORMANCE_PATTERNS : List (RE × String) :=
  [ -- SELECT\s+\*\s+FROM
    (reCat [reLit "SELECT", ws1, RE.char '*', ws1, reLit "FROM"],
     "Performance: SELECT * should specify columns"),
    -- for\s+\w+\s+in\s+\w+:\s+.*query
    (reCat [reLit "for", ws1, RE.rep reWord 1 none, ws1, reLit "in", ws1,
      RE.rep reWord 1 none, RE.char ':', ws1, dotStar, reLit "query"],
     "Performance: Query in loop detected"),
    -- \.count\(\)\s*==\s*0
    (reCat [reLit ".count()", ws0, reLit "==", ws0, RE.char '0'],
     "Performance: Use .exists() instead of .count() == 0") ]

/-! ## Rule engine (`rules/security_rules.py`) -/

/-- Python `str.strip()`: remove leading and trailing whitespace. -/
def pyStrip (s : String) : String :=
  String.mk (((s.toList.dropWhile Char.isWhitespace).reverse.dropWhile
    Char.isWhitespace).reverse)

/-- Python `str.startswith`. -/
def pyStartsWith (s pre : String) : Bool :=
  s.toList.take pre.toList.length == pre.toList

/-- `SecurityRuleEngine.scan_line`: test the family's patterns in order and
build at most one `Violation` — the loop `break`s after the first matching
pattern.  The category is always `RuleCategory.SECURITY` in the source. -/
def scan_line (line : String) (file_path : String) (line_number : Nat)
    (patterns : List (RE × String)) (rule_id : String) (cwe_id : String)
    (owasp_category : String) (severity : SeverityLevel) : List Violation :=
  match patterns.find? (fun pm => research pm.1 line) with
  | none => []
  | some pm =>
    [{ rule_id := rule_id
       rule_name := pm.2
       category := RuleCategory.security
       severity := severity
       message := pm.2 ++ ". This could expose sensitive data or enable attacks."
       file_path := file_path
       line_number := line_number
       line_content := pyStrip line
       cwe_id := cwe_id
       owasp_category := owasp_category }]

/-- The per-line body of `SecurityRuleEngine.scan_code`: skip pure comments
and blank lines, then run the twelve rule families in source order and
concatenate their violations. -/
def scanCodeLine (file_path : String) (line_number : Nat) (line : String) :
    List Violation :=
  if pyStartsWith (pyStrip line) "#" || pyStartsWith (pyStrip line) "//"
      || pyStrip line == "" then
    []
  else
    scan_line line file_path line_number HARDCODED_SECRET_PATTERNS
      "SEC-001" "CWE-798" "A02:2021 – Cryptographic Failures" SeverityLevel.critical
    ++ scan_line line file_path line_number SQL_INJECTION_PATTERNS
      "SEC-002" "CWE-89" "A03:2021 – Injection" SeverityLevel.critical
    ++ scan_line line file_path line_number INSECURE_DESERIALIZATION_PATTERNS
      "SEC-003" "CWE-502" "A08:2021 – Software and Data Integrity Failures"
      SeverityLevel.high
    ++ scan_line line file_path line_number UNSAFE_EXECUTION_PATTERNS
      "SEC-004" "CWE-95" "A03:2021 – Injection" SeverityLevel.critical
    ++ scan_line line file_path line_number WEAK_CRYPTO_PATTERNS
      "SEC-005" "CWE-327" "A02:2021 – Cryptographic Failures" SeverityLevel.high
    ++ scan_line line file_path line_number INSECURE_HEADERS_PATTERNS
      "SEC-006" "CWE-693" "A05:2021 – Broken Access Control" SeverityLevel.medium
    ++ scan_line line file_path line_number UNSAFE_FILE_OPERATIONS_PATTERNS
      "SEC-007" "CWE-434" "A04:2021 – Insecure Deserialization" SeverityLevel.high
    ++ scan_line line file_path line_number INSECURE_RANDOM_PATTERNS
      "SEC-008" "CWE-338" "A02:2021 – Cryptographic Failures" SeverityLevel.high
    ++ scan_line line file_path line_number COMPLIANCE_PATTERNS
      "COMP-001" "CWE-TODO" "Development Process Issue" SeverityLevel.medium
    ++ scan_line line file_path line_number LOGGING_PATTERNS
      "SEC-009" "CWE-532" "A09:2021 – Logging and Monitoring Failures"
      SeverityLevel.medium
    ++ scan_line line file_path line_number DEPENDENCY_PATTERNS
      "SEC-010" "CWE-295" "A02:2021 – Cryptographic Failures" SeverityLevel.high
    ++ scan_line line file_path line_number PERFORMANCE_PATTERNS
      "PERF-001" "CWE-1061" "Performance Issue" SeverityLevel.low

/-- Python `code.split("\n")` on the character level: split at every
newline, no merging of adjacent separators (`""` splits to `[""]`). -/
def splitNewlines : List Char → List (List Char)
  | [] => [[]]
  | c :: rest =>
    match splitNewlines rest, c == '\n' with
    | r, true => [] :: r
    | h :: t, false => (c :: h) :: t
    | [], false => [[c]]

/-- Enumerate lines from 1 (`enumerate(lines, 1)`), concatenating each
line's violations. -/
def scanLinesFrom (file_path : String) (line_number : Nat) :
    List String → List Violation
  | [] => []
  | line :: rest =>
    scanCodeLine file_path line_number line
      ++ scanLinesFrom file_path (line_number + 1) rest

/-- `SecurityRuleEngine.scan_code`: split on `"\n"` and scan each line. -/
def scan_code (code : String) (file_path : String) : List Violation :=
  scanLinesFrom file_path 1 ((splitNewlines code.toList).map String.mk)

/-! ## Audit ledger (`audit/audit_logger.py`)

`AuditEvent` is the dataclass of the source.  `pr_number` and the count
fields are Python `int`s, embedded as `Int`.  `violations_summary` is
`Optional[List[Dict]]`; every dict the repository ever stores there is the
flat string-valued `{"rule_id", "severity", "category"}` record built in
`main.py`, so the summaries are embedded as flat string-valued objects.

The durable store is the daily `.jsonl` file the logger appends to; all
events of one run land in the same file (same `utcnow` date), so the store
is embedded as that single file's text, and `uuid.uuid4()` /
`datetime.utcnow().isoformat()` are passed in as arguments.
-/

/-- The `AuditEvent` dataclass (fields in declaration order). -/
structure AuditEvent where
  event_id : String
  timestamp : String
  repo_name : String
  pr_number : Int
  commit_hash : String
  violation_count : Int
  critical_count : Int
  high_count : Int
  enforcement_action : String
  blocked : Bool
  override_applied : Bool := false
  override_reason : Option String := none
  pr_url : Option String := none
  scan_id : Option String := none
  violations_summary : Option (List (List (String × String))) := none
deriving DecidableEq, Repr

/-! ### `AuditEvent.to_json`: `json.dumps(self.to_dict(), indent=2)` -/

/-- `n` spaces of indentation. -/
def indentChars (n : Nat) : List Char := List.replicate n ' '

/-- Decimal digits of a natural number (the fuel is always sufficient:
`n` has at most `n` digits). -/
def natReprAux : Nat → Nat → List Char
  | 0, _ => []
  | fuel + 1, n =>
    if n == 0 then [] else natReprAux fuel (n / 10) ++ [hexDigitChar (n % 10)]

/-- Python `str` of a non-negative integer. -/
def natRepr (n : Nat) : List Char :=
  if n == 0 then ['0'] else natReprAux n n

/-- Python `str` of an integer, as `json.dumps` renders it. -/
def intRepr : Int → List Char
  | Int.ofNat n => natRepr n
  | Int.negSucc m => '-' :: natRepr (m + 1)

/-- `json.dumps` of a Boolean. -/
def boolRepr : Bool → List Char
  | true => "true".toList
  | false => "false".toList

/-- `json.dumps` of `None`. -/
def nullChars : List Char := "null".toList

/-- `json.dumps` of an optional string. -/
def optStrRender : Option String → List Char
  | none => nullChars
  | some s => jstr s

/-- `json.dumps(d, indent=2)` of a flat string-valued dict nested at
`level`. -/
def renderFlatObj (fields : List (String × String)) (level : Nat) : List Char :=
  match fields with
  | [] => ['{', '}']
  | _ =>
    '{' :: '\n' :: List.intercalate [',', '\n']
      (fields.map (fun kv =>
        indentChars (2 * (level + 1)) ++ jstr kv.1 ++ ':' :: ' ' :: jstr kv.2))
    ++ '\n' :: indentChars (2 * level) ++ ['}']

/-- `json.dumps(summary_list, indent=2)` of the violations summary nested at
`level`. -/
def renderSummary (sums : List (List (String × String))) (level : Nat) : List Char :=
  match sums with
  | [] => ['[', ']']
  | _ =>
    '[' :: '\n' :: List.intercalate [',', '\n']
      (sums.map (fun d =>
        indentChars (2 * (level + 1)) ++ renderFlatObj d (level + 1)))
    ++ '\n' :: indentChars (2 * level) ++ [']']

/-- The fields of `AuditEvent.to_dict()` (i.e. `asdict`, declaration order),
each with its rendered JSON value at nesting level 1. -/
def eventFieldsRendered (e : AuditEvent) : List (String × List Char) :=
  [("event_id", jstr e.event_id),
   ("timestamp", jstr e.timestamp),
   ("repo_name", jstr e.repo_name),
   ("pr_number", intRepr e.pr_number),
   ("commit_hash", jstr e.commit_hash),
   ("violation_count", intRepr e.violation_count),
   ("critical_count", intRepr e.critical_count),
   ("high_count", intRepr e.high_count),
   ("enforcement_action", jstr e.enforcement_action),
   ("blocked", boolRepr e.blocked),
   ("override_applied", boolRepr e.override_applied),
   ("override_reason", optStrRender e.override_reason),
   ("pr_url", optStrRender e.pr_url),
   ("scan_id", optStrRender e.scan_id),
   ("violations_summary",
     match e.violations_summary with
     | none => nullChars
     | some sums => renderSummary sums 1)]

/-- `AuditEvent.to_json()`: `json.dumps(self.to_dict(), indent=2)`. -/
def event_to_json (e : AuditEvent) : String :=
  String.mk ('{' :: '\n' :: List.intercalate [',', '\n']
    ((eventFieldsRendered e).map (fun kv =>
      indentChars 2 ++ jstr kv.1 ++ ':' :: ' ' :: kv.2))
    ++ '\n' :: ['}'])

/-! ### `json.loads` (Python standard library, reading side)

A recursive-descent parser for the JSON fragment the ledger writes (objects,
arrays, strings with the standard escapes, integers, booleans, null), strict
about raw control characters as Python's decoder is.  Recursion is bounded
by a fuel argument; `loads` passes `2 * length + 2`, which always dominates
the recursion depth (the parser consumes at least one character per two fuel
units).  Floats, leading-zero rejection and lone surrogates — which the
ledger never writes — are out of scope: the first two are not parsed, a lone
surrogate is a parse failure (a Lean `Char` cannot hold one). -/

/-- The JSON values `json.loads` can produce here. -/
inductive Json where
  | null
  | bool (b : Bool)
  | num (n : Int)
  | str (s : String)
  | arr (xs : List Json)
  | obj (fields : List (String × Json))

/-- JSON whitespace skipping (space, tab, newline, carriage return). -/
def jws (cs : List Char) : List Char :=
  cs.dropWhile (fun c => c == ' ' || c == '\t' || c == '\n' || c == '\r')

/-- Hexadecimal digit value (both cases), if any. -/
def hexVal? (c : Char) : Option Nat :=
  if '0' ≤ c && c ≤ '9' then some (c.toNat - 48)
  else if 'a' ≤ c && c ≤ 'f' then some (c.toNat - 87)
  else if 'A' ≤ c && c ≤ 'F' then some (c.toNat - 55)
  else none

/-- Value of four hex digits, if all four are hex. -/
def hex4Val? (a b c d : Char) : Option Nat :=
  match hexVal? a, hexVal? b, hexVal? c, hexVal? d with
  | some x, some y, some z, some w => some (((x * 16 + y) * 16 + z) * 16 + w)
  | _, _, _, _ => none

/-- Decode the hex digits after a `\u`: the decoded character and the number
of characters consumed (4, or 10 when a surrogate pair is recombined).  A
lone surrogate — which a Lean `Char` cannot hold, and the ledger never
writes — is a failure. -/
def pUEscape : List Char → Option (Char × Nat)
  | a :: b :: d :: f :: rest2 =>
    match hex4Val? a b d f with
    | none => none
    | some code =>
      if code < 55296 || 57343 < code then some (Char.ofNat code, 4)
      else if code < 56320 then
        -- high surrogate: must be followed by a low surrogate
        match rest2 with
        | g :: u :: a2 :: b2 :: d2 :: f2 :: _ =>
          if g == '\\' && u == 'u' then
            match hex4Val? a2 b2 d2 f2 with
            | some code2 =>
              if 56320 ≤ code2 && code2 ≤ 57343 then
                some (Char.ofNat
                  (65536 + (code - 55296) * 1024 + (code2 - 56320)), 10)
              else none
            | none => none
          else none
        | _ => none
      else none
  | _ => none

/-- String-body scanner: characters up to the closing quote, decoding the
standard escapes and `\uXXXX`, strict about raw control characters as
Python's decoder is. -/
def pStrAux : List Char → List Char → Option (String × List Char)
  | _, [] => none
  | acc, c :: rest =>
    if c == '"' then some (String.mk acc.reverse, rest)
    else if c == '\\' then
      match rest with
      | [] => none
      | e :: rest2 =>
        if e == 'u' then
          match pUEscape rest2 with
          | some (ch, k) => pStrAux (ch :: acc) (rest2.drop k)
          | none => none
        else if e == '"' then pStrAux ('"' :: acc) rest2
        else if e == '\\' then pStrAux ('\\' :: acc) rest2
        else if e == '/' then pStrAux ('/' :: acc) rest2
        else if e == 'b' then pStrAux (Char.ofNat 8 :: acc) rest2
        else if e == 'f' then pStrAux (Char.ofNat 12 :: acc) rest2
        else if e == 'n' then pStrAux ('\n' :: acc) rest2
        else if e == 'r' then pStrAux ('\r' :: acc) rest2
        else if e == 't' then pStrAux ('\t' :: acc) rest2
        else none
    else if c.toNat < 32 then none
    else pStrAux (c :: acc) rest
termination_by _ cs => cs.length
decreasing_by
  all_goals simp_wf
  all_goals omega

/-- Digit-run value. -/
def digitsToNat (ds : List Char) : Nat :=
  ds.foldl (fun a c => 10 * a + (c.toNat - 48)) 0

/-- Integer literal (an optional minus sign and a maximal digit run). -/
def pInt (cs : List Char) : Option (Int × List Char) :=
  match cs with
  | '-' :: rest =>
    let p := rest.span Char.isDigit
    if p.1.isEmpty then none else some (-(digitsToNat p.1 : Int), p.2)
  | _ =>
    let p := cs.span Char.isDigit
    if p.1.isEmpty then none else some ((digitsToNat p.1 : Int), p.2)

mutual

/-- Parse one JSON value after skipping whitespace. -/
def pVal : Nat → List Char → Option (Json × List Char)
  | 0, _ => none
  | fuel + 1, cs =>
    match jws cs with
    | [] => none
    | c :: rest =>
      if c == '"' then
        (pStrAux [] rest).map (fun p => (Json.str p.1, p.2))
      else if c == '{' then
        match jws rest with
        | '}' :: r2 => some (Json.obj [], r2)
        | t => (pObjFields fuel t).map (fun p => (Json.obj p.1, p.2))
      else if c == '[' then
        match jws rest with
        | ']' :: r2 => some (Json.arr [], r2)
        | t => (pArrItems fuel t).map (fun p => (Json.arr p.1, p.2))
      else if c == 't' then
        match rest with
        | 'r' :: 'u' :: 'e' :: r2 => some (Json.bool true, r2)
        | _ => none
      else if c == 'f' then
        match rest with
        | 'a' :: 'l' :: 's' :: 'e' :: r2 => some (Json.bool false, r2)
        | _ => none
      else if c == 'n' then
        match rest with
        | 'u' :: 'l' :: 'l' :: r2 => some (Json.null, r2)
        | _ => none
      else
        (pInt (c :: rest)).map (fun p => (Json.num p.1, p.2))

/-- Parse the items of a nonempty array, sitting at the first item. -/
def pArrItems : Nat → List Char → Option (List Json × List Char)
  | 0, _ => none
  | fuel + 1, cs => do
    let (v, r1) ← pVal fuel cs
    match jws r1 with
    | ',' :: r2 => do
      let (vs, r3) ← pArrItems fuel r2
      pure (v :: vs, r3)
    | ']' :: r2 => pure ([v], r2)
    | _ => none

/-- Parse the fields of a nonempty object, sitting at the first key. -/
def pObjFields : Nat → List Char → Option (List (String × Json) × List Char)
  | 0, _ => none
  | fuel + 1, cs =>
    match jws cs with
    | '"' :: r1 => do
      let (k, r2) ← pStrAux [] r1
      match jws r2 with
      | ':' :: r3 => do
        let (v, r4) ← pVal fuel r3
        match jws r4 with
        | ',' :: r5 => do
          let (fs, r6) ← pObjFields fuel r5
          pure ((k, v) :: fs, r6)
        | '}' :: r5 => pure ([(k, v)], r5)
        | _ => none
      | _ => none
    | _ => none

end

/-- `json.loads`: one complete value, then only whitespace. -/
def loads (s : String) : Option Json :=
  let cs := s.toList
  match pVal (2 * cs.length + 2) cs with
  | some (v, rest) => if jws rest == [] then some v else none
  | none => none

/-! ### Record extraction and replay (`AuditLogger.load_audit_logs`) -/

/-- The brace-counting scan of `load_audit_logs`: `count` is the running
`brace_count` (a Python int — it can go negative), `cur` is the slice being
accumulated since the `{` seen at count 0 (in reverse), `acc` the completed
object strings (in reverse).  Mirrors the index-slicing loop of the source:
a slice starts at a `{` seen when the count is 0 and ends at the `}` that
brings the count back to 0.  (`cur = none` while `count ≥ 1` is unreachable
from the initial state; that branch just keeps scanning.) -/
def extractAux : List Char → Int → Option (List Char) → List (List Char) →
    List (List Char)
  | [], _, _, acc => acc.reverse
  | c :: rest, count, cur, acc =>
    if c == '{' then
      if count == 0 then extractAux rest (count + 1) (some ['{']) acc
      else extractAux rest (count + 1) (cur.map (fun b => '{' :: b)) acc
    else if c == '}' then
      if count - 1 == 0 then
        match cur with
        | some b => extractAux rest 0 none (('}' :: b).reverse :: acc)
        | none => extractAux rest (count - 1) none acc
      else extractAux rest (count - 1) (cur.map (fun b => '}' :: b)) acc
    else
      extractAux rest count (cur.map (fun b => c :: b)) acc

/-- All complete `{...}` slices of the file content, in order. -/
def extractObjects (content : List Char) : List (List Char) :=
  extractAux content 0 none []

/-- Dict lookup in a parsed JSON object (the written objects have unique
keys, so first binding is the binding). -/
def jGet (fields : List (String × Json)) (key : String) : Option Json :=
  (fields.find? (fun kv => kv.1 == key)).map (fun kv => kv.2)

/-- A required string entry (`event_dict["k"]`); a missing key is the
`KeyError` the source catches. -/
def reqStr (fields : List (String × Json)) (key : String) : Option String :=
  match jGet fields key with
  | some (Json.str s) => some s
  | _ => none

/-- A required int entry. -/
def reqInt (fields : List (String × Json)) (key : String) : Option Int :=
  match jGet fields key with
  | some (Json.num n) => some n
  | _ => none

/-- A required bool entry. -/
def reqBool (fields : List (String × Json)) (key : String) : Option Bool :=
  match jGet fields key with
  | some (Json.bool b) => some b
  | _ => none

/-- `event_dict.get(k)` for an optional string field: an absent key or a
JSON null is `None`. -/
def optStr (fields : List (String × Json)) (key : String) : Option (Option String) :=
  match jGet fields key with
  | none => some none
  | some Json.null => some none
  | some (Json.str s) => some (some s)
  | some _ => none

/-- One summary entry: a flat object with string values. -/
def asStrPairs : Json → Option (List (String × String))
  | Json.obj fields =>
    fields.foldr (fun kv rest =>
      match kv.2, rest with
      | Json.str s, some r => some ((kv.1, s) :: r)
      | _, _ => none) (some [])
  | _ => none

/-- Decode a summary array's entries, failing if any entry is not a flat
string-valued object. -/
def sumFold (xs : List Json) : Option (List (List (String × String))) :=
  xs.foldr (fun x rest =>
    match asStrPairs x, rest with
    | some d, some r => some (d :: r)
    | _, _ => none) (some [])

/-- `event_dict.get("violations_summary")`. -/
def optSummary (fields : List (String × Json)) :
    Option (Option (List (List (String × String)))) :=
  match jGet fields "violations_summary" with
  | none => some none
  | some Json.null => some none
  | some (Json.arr xs) => (sumFold xs).map (fun l => some l)
  | some _ => none

/-- `AuditLogger._create_event_from_dict`: rebuild an `AuditEvent` from a
parsed record; any missing required key (the caught `KeyError`) skips the
event.  (Python, being untyped, would also accept entries of the wrong
type; the ledger never writes such records, and here they are skipped
too.) -/
def create_event_from_dict (j : Json) : Option AuditEvent :=
  match j with
  | Json.obj fields => do
    let event_id ← reqStr fields "event_id"
    let timestamp ← reqStr fields "timestamp"
    let repo_name ← reqStr fields "repo_name"
    let pr_number ← reqInt fields "pr_number"
    let commit_hash ← reqStr fields "commit_hash"
    let violation_count ← reqInt fields "violation_count"
    let critical_count ← reqInt fields "critical_count"
    let high_count ← reqInt fields "high_count"
    let enforcement_action ← reqStr fields "enforcement_action"
    let blocked ← reqBool fields "blocked"
    let override_applied ←
      match jGet fields "override_applied" with
      | none => some false
      | some (Json.bool b) => some b
      | some _ => none
    let override_reason ← optStr fields "override_reason"
    let pr_url ← optStr fields "pr_url"
    let scan_id ← optStr fields "scan_id"
    let violations_summary ← optSummary fields
    pure { event_id, timestamp, repo_name, pr_number, commit_hash,
           violation_count, critical_count, high_count, enforcement_action,
           blocked, override_applied, override_reason, pr_url, scan_id,
           violations_summary }
  | _ => none

/-- `AuditLogger.load_audit_logs` over one day file's content: extract the
brace-balanced slices, parse each, keep the well-formed ones (`Error
parsing object` records are skipped, not fatal). -/
def load_audit_logs (content : String) : List AuditEvent :=
  (extractObjects content.toList).filterMap (fun obj =>
    (loads (String.mk obj)).bind create_event_from_dict)

/-! ### The logger object -/

/-- State of an `AuditLogger`: the in-memory event list and the durable
day-file text. -/
structure AuditLogger where
  events : List AuditEvent := []
  store : String := ""
deriving DecidableEq, Repr

/-- `AuditLogger._write_event`: append `event.to_json() + "\n"` to the day
file. -/
def write_event (l : AuditLogger) (e : AuditEvent) : AuditLogger :=
  { l with store := l.store ++ event_to_json e ++ "\n" }

/-- Append a batch of events the way the logger does (in-memory append plus
durable append, per event). -/
def write_events (l : AuditLogger) (es : List AuditEvent) : AuditLogger :=
  es.foldl (fun acc e => write_event { acc with events := acc.events ++ [e] } e) l

/-- `AuditLogger.log_scan` (the `uuid4` id and `utcnow` timestamp are
arguments). -/
def log_scan (l : AuditLogger) (event_id timestamp repo_name : String)
    (pr_number : Int) (commit_hash : String)
    (violation_count critical_count high_count : Int)
    (enforcement_action : String) (blocked : Bool) (scan_id : String)
    (violations_summary : Option (List (List (String × String))))
    (pr_url : Option String) : AuditLogger × AuditEvent :=
  let event : AuditEvent :=
    { event_id, timestamp, repo_name, pr_number, commit_hash,
      violation_count, critical_count, high_count, enforcement_action,
      blocked, pr_url, scan_id := some scan_id, violations_summary }
  (write_event { l with events := l.events ++ [event] } event, event)

/-- `AuditLogger.log_override`.  Note the `override_token` argument is not
stored in the event. -/
def log_override (l : AuditLogger) (event_id timestamp repo_name : String)
    (pr_number : Int) (override_reason : String) (_override_token : String) :
    AuditLogger × AuditEvent :=
  let event : AuditEvent :=
    { event_id, timestamp, repo_name, pr_number, commit_hash := "",
      violation_count := 0, critical_count := 0, high_count := 0,
      enforcement_action := "override", blocked := false,
      override_applied := true, override_reason := some override_reason }
  (write_event { l with events := l.events ++ [event] } event, event)

/-! ## The `/api/analyze` flow (`main.py`, `analyze_code`)

The model starts where the claims do: with the violation list produced by
`CodeAnalyzer.analyze_files` and ends with the response dict.  Sources of
nondeterminism (uuids, timestamps, the AI fix collaborator) are arguments:
`ai_fix v = some fix` models `ai_reviewer.suggest_fix` returning `(fix, _)`,
`none` models the caught exception (field left unchanged). -/

/-- The response dict of `analyze_code` (the fields built at the end of the
handler). -/
structure AnalyzeResponse where
  success : Bool
  scan_id : String
  repo_name : String
  pr_number : Int
  violations : List Violation
  violation_count : Nat
  critical_count : Nat
  high_count : Nat
  medium_count : Nat
  low_count : Nat
  copilot_violations : Nat
  enforcement_mode : String
  should_block : Bool
  block_reason : Option String
  override_applied : Bool
deriving DecidableEq, Repr

/-- `analyze_code` from enforcement to response: enforce the policy, apply a
presented override token (Python truthiness: a present, nonempty token) when
the decision was to block, logging the override; enrich kept violations with
AI suggestions; log the scan with the *current* `should_block`; build the
response.  Returns the updated audit logger and the response. -/
def analyze_code (engine : PolicyEngine) (logger : AuditLogger)
    (violations : List Violation) (repo_name : String) (pr_number : Int)
    (commit_hash : String) (override_token : Option String)
    (override_reason : Option String) (ai_fix : Violation → Option String)
    (scan_id ev_id_override ts_override ev_id_scan ts_scan : String) :
    AuditLogger × AnalyzeResponse :=
  let er := enforce_policy engine violations repo_name
  -- override check (data.get("override_token") truthiness and should_block)
  let tokenPresent := match override_token with
    | some t => t != ""
    | none => false
  let doOverride := tokenPresent && er.should_block
    && validate_override_token (override_token.getD "") repo_name
  let override_applied := doOverride
  let er := if doOverride then { er with should_block := false } else er
  let logger :=
    if doOverride then
      (log_override logger ev_id_override ts_override repo_name pr_number
        (override_reason.getD "No reason provided") (override_token.getD "")).1
    else logger
  -- AI enhancement of the kept violations (suggested_fix only)
  let enhanced := er.violations.map (fun v =>
    match ai_fix v with
    | some fix => { v with suggested_fix := some fix }
    | none => v)
  let er := { er with violations := enhanced }
  let violations_summary := er.violations.map (fun v =>
    [("rule_id", v.rule_id), ("severity", v.severity.value),
     ("category", v.category.value)])
  let logger := (log_scan logger ev_id_scan ts_scan repo_name pr_number
    commit_hash (er.violations.length : Int)
    ((er.violations.filter (fun v => v.severity.value == "critical")).length : Int)
    ((er.violations.filter (fun v => v.severity.value == "high")).length : Int)
    er.enforcement_mode.value er.should_block scan_id
    (some violations_summary) none).1
  (logger,
   { success := true
     scan_id := scan_id
     repo_name := repo_name
     pr_number := pr_number
     violations := er.violations
     violation_count := er.violations.length
     critical_count := (er.violations.filter (fun v => v.severity.value == "critical")).length
     high_count := (er.violations.filter (fun v => v.severity.value == "high")).length
     medium_count := (er.violations.filter (fun v => v.severity.value == "medium")).length
     low_count := (er.violations.filter (fun v => v.severity.value == "low")).length
     copilot_violations := (er.violations.filter (fun v => v.is_copilot_generated)).length
     enforcement_mode := er.enforcement_mode.value
     should_block := er.should_block
     block_reason := er.block_reason
     override_applied := override_applied })

/-! ## Concrete sample inputs used by counterexamples and witnesses -/

/-- The line of spec §8 Scenario B. -/
def sqlConcatLine : String :=
  "cursor.execute(\"SELECT * FROM t WHERE id = \" + str(x))"

/-- A code line carrying an unresolved security work marker (outside a pure
comment line, so it is scanned). -/
def todoSecurityLine : String := "connect()  # TODO SECURITY: rotate keys"

/-- A critical security violation, as `scan_line` would emit for
Scenario A. -/
def sampleCritViolation : Violation :=
  { rule_id := "SEC-001"
    rule_name := "Hardcoded Password"
    category := RuleCategory.security
    severity := SeverityLevel.critical
    message := "Hardcoded Password. This could expose sensitive data or enable attacks."
    file_path := "a.py"
    line_number := 1
    line_content := "password = \"supersecret1\""
    cwe_id := "CWE-798"
    owasp_category := "A02:2021 – Cryptographic Failures" }

/-- A 64-character token (well-formed in the eyes of
`validate_override_token`). -/
def tok64 : String :=
  "aaaaaaaaaaaaaaaaaaaaaaaaaaaaaaaaaaaaaaaaaaaaaaaaaaaaaaaaaaaaaaaa"

/-! ## Goodness for the ledger round trip (C7)

The brace-counting record extraction cannot tell a structural brace from a
brace inside a JSON string, so the round trip is only claimed for events
whose string fields are printable-ASCII text without brace characters (the
ids, iso timestamps, repo names, hashes, actions, rule ids, severities and
categories the pipeline actually writes all are). -/

/-- A printable-ASCII character that is not a brace. -/
def GoodChar (c : Char) : Prop :=
  32 ≤ c.toNat ∧ c.toNat ≤ 126 ∧ c ≠ '{' ∧ c ≠ '}'

instance (c : Char) : Decidable (GoodChar c) := by
  unfold GoodChar
  infer_instance

/-- All characters of a string are good. -/
def GoodStr (s : String) : Prop := ∀ c ∈ s.data, GoodChar c

instance (s : String) : Decidable (GoodStr s) := by
  unfold GoodStr
  infer_instance

/-- Goodness of an optional string field. -/
def GoodOpt : Option String → Prop
  | none => True
  | some s => GoodStr s

instance (o : Option String) : Decidable (GoodOpt o) := by
  cases o <;> unfold GoodOpt <;> infer_instance

/-- Goodness of the violations summary. -/
def GoodSummary : Option (List (List (String × String))) → Prop
  | none => True
  | some sums => ∀ d ∈ sums, ∀ kv ∈ d, GoodStr kv.1 ∧ GoodStr kv.2

instance (o : Option (List (List (String × String)))) :
    Decidable (GoodSummary o) := by
  cases o <;> unfold GoodSummary <;> infer_instance

/-- All string content of an audit event is good. -/
def GoodEvent (e : AuditEvent) : Prop :=
  GoodStr e.event_id ∧ GoodStr e.timestamp ∧ GoodStr e.repo_name
  ∧ GoodStr e.commit_hash ∧ GoodStr e.enforcement_action
  ∧ GoodOpt e.override_reason ∧ GoodOpt e.pr_url ∧ GoodOpt e.scan_id
  ∧ GoodSummary e.violations_summary

instance (e : AuditEvent) : Decidable (GoodEvent e) := by
  unfold GoodEvent
  infer_instance

/-- The JSON value `json.loads` recovers from a written event. -/
def eventJson (e : AuditEvent) : Json :=
  Json.obj
    [("event_id", Json.str e.event_id),
     ("timestamp", Json.str e.timestamp),
     ("repo_name", Json.str e.repo_name),
     ("pr_number", Json.num e.pr_number),
     ("commit_hash", Json.str e.commit_hash),
     ("violation_count", Json.num e.violation_count),
     ("critical_count", Json.num e.critical_count),
     ("high_count", Json.num e.high_count),
     ("enforcement_action", Json.str e.enforcement_action),
     ("blocked", Json.bool e.blocked),
     ("override_applied", Json.bool e.override_applied),
     ("override_reason", match e.override_reason with
       | none => Json.null
       | some s => Json.str s),
     ("pr_url", match e.pr_url with
       | none => Json.null
       | some s => Json.str s),
     ("scan_id", match e.scan_id with
       | none => Json.null
       | some s => Json.str s),
     ("violations_summary", match e.violations_summary with
       | none => Json.null
       | some sums =>
         Json.arr (sums.map (fun d =>
           Json.obj (d.map (fun kv => (kv.1, Json.str kv.2))))))]

/-- A scan event whose repository name contains an unbalanced brace. -/
def bracedEvent : AuditEvent :=
  { event_id := "id-7"
    timestamp := "2026-10-12T00:00:00"
    repo_name := "repo\x7bx"
    pr_number := 7
    commit_hash := "deadbeef"
    violation_count := 0
    critical_count := 0
    high_count := 0
    enforcement_action := "warning"
    blocked := false
    scan_id := some "scan-7" }

/-- A well-behaved scan event (with a summary), for the round-trip
witness. -/
def goodEvent : AuditEvent :=
  { event_id := "id-1"
    timestamp := "2026-10-12T00:00:00"
    repo_name := "acme/web"
    pr_number := 7
    commit_hash := "deadbeef"
    violation_count := 2
    critical_count := 1
    high_count := 0
    enforcement_action := "warning"
    blocked := true
    scan_id := some "scan-1"
    violations_summary := some
      [[("rule_id", "SEC-002"), ("severity", "critical"), ("category", "security")],
       [("rule_id", "PERF-001"), ("severity", "low"), ("category", "security")]] }

/-! ## Definitions for the C7 round-trip development -/

def braceFree (p : List Char) : Prop := ∀ c ∈ p, c ≠ '{' ∧ c ≠ '}'

instance (p : List Char) : Decidable (braceFree p) := by
  unfold braceFree
  infer_instance

def Neutral (p : List Char) : Prop :=
  ∀ (count : Int), 1 ≤ count → ∀ b acc rest,
    extractAux (p ++ rest) count (some b) acc
      = extractAux rest count (some (p.reverse ++ b)) acc

/-- One rendered object field: its key, printed value text, parsed value and
the parser fuel the value needs. -/
structure RField where
  key : String
  text : List Char
  val : Json
  need : Nat

/-- The value text parses to the value within its fuel budget (for any
continuation that does not start with a digit). -/
def RFieldOk (f : RField) : Prop :=
  GoodStr f.key ∧ ∀ fuel rest, (∀ c, rest.head? = some c → c.isDigit = false) →
    pVal (f.need + fuel + 1) (f.text ++ rest) = some (f.val, rest)

/-- The printed items of an object at nesting `level` (the text between the
`{`-newline and the newline-pad-`}`). -/
def rfieldsText (l : List RField) (level : Nat) : List Char :=
  List.intercalate [',', '\n'] (l.map (fun f =>
    indentChars (2 * (level + 1)) ++ jstr f.key ++ ':' :: ' ' :: f.text))

/-- Fuel needed by `pObjFields` for these fields. -/
def rfieldsNeed : List RField → Nat
  | [] => 0
  | f :: t => f.need + 1 + rfieldsNeed t

/-- Parsed value of one summary dict. -/
def dVal (d : List (String × String)) : Json :=
  Json.obj (d.map (fun kv => (kv.1, Json.str kv.2)))

/-- The rendered fields of one summary dict. -/
def dRFields (d : List (String × String)) : List RField :=
  d.map (fun kv => ⟨kv.1, jstr kv.2, Json.str kv.2, 0⟩)

/-- Parser fuel needed for one rendered summary dict. -/
def flatNeed (d : List (String × String)) : Nat := d.length + 1

/-- The printed items of the summary array at nesting `level`. -/
def sumsText (sums : List (List (String × String))) (level : Nat) : List Char :=
  List.intercalate [',', '\n'] (sums.map (fun d =>
    indentChars (2 * (level + 1)) ++ renderFlatObj d (level + 1)))

/-- What follows the first item's text inside a rendered object body. -/
def rfieldsTail : List RField → Nat → List Char → List Char
  | [], _, tail => tail
  | g :: t2, lvl, tail => ',' :: '\n' :: (rfieldsText (g :: t2) lvl ++ tail)

/-- What follows the first item's text inside a rendered array body. -/
def sumsTail : List (List (String × String)) → Nat → List Char → List Char
  | [], _, tail => tail
  | g :: t2, lvl, tail => ',' :: '\n' :: (sumsText (g :: t2) lvl ++ tail)

/-- Parser fuel needed for a rendered summary list. -/
def sumsNeed : List (List (String × String)) → Nat
  | [] => 0
  | d :: t => flatNeed d + 1 + sumsNeed t

/-- Parser fuel needed for the `violations_summary` value. -/
def sumNeedV : Option (List (List (String × String))) → Nat
  | none => 0
  | some sums => sumsNeed sums + 1

/-- The fields of a written event as render/parse pairs, declaration
order. -/
def eventRFields (e : AuditEvent) : List RField :=
  [⟨"event_id", jstr e.event_id, Json.str e.event_id, 0⟩,
   ⟨"timestamp", jstr e.timestamp, Json.str e.timestamp, 0⟩,
   ⟨"repo_name", jstr e.repo_name, Json.str e.repo_name, 0⟩,
   ⟨"pr_number", intRepr e.pr_number, Json.num e.pr_number, 0⟩,
   ⟨"commit_hash", jstr e.commit_hash, Json.str e.commit_hash, 0⟩,
   ⟨"violation_count", intRepr e.violation_count, Json.num e.violation_count, 0⟩,
   ⟨"critical_count", intRepr e.critical_count, Json.num e.critical_count, 0⟩,
   ⟨"high_count", intRepr e.high_count, Json.num e.high_count, 0⟩,
   ⟨"enforcement_action", jstr e.enforcement_action,
     Json.str e.enforcement_action, 0⟩,
   ⟨"blocked", boolRepr e.blocked, Json.bool e.blocked, 0⟩,
   ⟨"override_applied", boolRepr e.override_applied,
     Json.bool e.override_applied, 0⟩,
   ⟨"override_reason", optStrRender e.override_reason,
     match e.override_reason with
     | none => Json.null
     | some s => Json.str s, 0⟩,
   ⟨"pr_url", optStrRender e.pr_url,
     match e.pr_url with
     | none => Json.null
     | some s => Json.str s, 0⟩,
   ⟨"scan_id", optStrRender e.scan_id,
     match e.scan_id with
     | none => Json.null
     | some s => Json.str s, 0⟩,
   ⟨"violations_summary",
     match e.violations_summary with
     | none => nullChars
     | some sums => renderSummary sums 1,
     match e.violations_summary with
     | none => Json.null
     | some sums => Json.arr (sums.map dVal),
     sumNeedV e.violations_summary⟩]

/-- Parser fuel needed for one whole written event. -/
def needE (e : AuditEvent) : Nat := rfieldsNeed (eventRFields e) + 1

/-! ## Helper lemmas -/

theorem partition_spec (p : Policy) (vs : List Violation) :
    partitionViolations p vs =
      (vs.filter (fun v => !category_filtered p v),
       vs.filter (fun v => category_filtered p v)) := by
  induction vs with
  | nil => rfl
  | cons v rest ih =>
    simp only [partitionViolations, ih, List.filter_cons]
    cases h : category_filtered p v <;> simp [h]

theorem length_filter_not_add {α : Type} (l : List α) (f : α → Bool) :
    (l.filter (fun a => !f a)).length + (l.filter f).length = l.length := by
  have h := l.length_eq_length_filter_add f
  omega

theorem count_filter_not_add {α : Type} [DecidableEq α] (l : List α)
    (f : α → Bool) (v : α) :
    (l.filter (fun a => !f a)).count v + (l.filter f).count v = l.count v := by
  induction l with
  | nil => rfl
  | cons a t ih =>
    cases h : f a <;> simp [List.filter_cons, h, List.count_cons] <;> omega

theorem enforce_policy_violations (e : PolicyEngine) (vs : List Violation)
    (repo : String) :
    (enforce_policy e vs repo).violations =
      vs.filter (fun v => !category_filtered (get_policy e repo) v) := by
  simp only [enforce_policy, partition_spec]
  split <;> split <;> (try split) <;> rfl

theorem enforce_policy_filtered (e : PolicyEngine) (vs : List Violation)
    (repo : String) :
    (enforce_policy e vs repo).filtered_violations =
      vs.filter (fun v => category_filtered (get_policy e repo) v) := by
  simp only [enforce_policy, partition_spec]
  split <;> split <;> (try split) <;> rfl

theorem enforce_policy_mode (e : PolicyEngine) (vs : List Violation)
    (repo : String) :
    (enforce_policy e vs repo).enforcement_mode
      = (get_policy e repo).enforcement_mode := by
  simp only [enforce_policy, partition_spec]
  split <;> split <;> (try split) <;> rfl

theorem foldl_register_default (regs : List Policy) (e : PolicyEngine) :
    (List.foldl register_policy e regs).default_policy = e.default_policy := by
  induction regs generalizing e with
  | nil => rfl
  | cons p t ih => simp only [List.foldl]; rw [ih]; rfl

/-! ## Claims -/

/-- C6: for every violation list and policy, the kept violations and the
filtered violations partition the raw input: the lengths add up to the raw
count, and every violation's multiplicity in the input equals the sum of its
multiplicities in the two output lists. -/
theorem claim_C6 (e : PolicyEngine) (violations : List Violation)
    (repo_name : String) :
    ((enforce_policy e violations repo_name).violations.length
        + (enforce_policy e violations repo_name).filtered_violations.length
      = violations.length)
    ∧ ∀ v : Violation,
        (enforce_policy e violations repo_name).violations.count v
          + (enforce_policy e violations repo_name).filtered_violations.count v
        = violations.count v := by
  rw [enforce_policy_violations, enforce_policy_filtered]
  exact ⟨length_filter_not_add violations _,
    fun v => count_filter_not_add violations _ v⟩

/-- C8: for every line and rule family, `scan_line` emits at most one
violation (the first matching pattern wins); and on Scenario B's line two
independent families (SQL injection and performance) each still contribute
their one violation. -/
theorem claim_C8 :
    (∀ (line file_path : String) (line_number : Nat)
        (patterns : List (RE × String)) (rule_id cwe_id owasp_cat : String)
        (sev : SeverityLevel),
      (scan_line line file_path line_number patterns rule_id cwe_id owasp_cat
        sev).length ≤ 1)
    ∧ (scan_line sqlConcatLine "test.py" 1 SQL_INJECTION_PATTERNS "SEC-002"
        "CWE-89" "A03:2021 – Injection" SeverityLevel.critical).length = 1
    ∧ (scan_line sqlConcatLine "test.py" 1 PERFORMANCE_PATTERNS "PERF-001"
        "CWE-1061" "Performance Issue" SeverityLevel.low).length = 1 := by
  refine ⟨?_, ?_, ?_⟩
  · intro line fp n pats rid cwe ow sev
    unfold scan_line
    cases h : pats.find? (fun pm => research pm.1 line) <;> simp
  · rfl
  · rfl

/-- C9: `validate_override_token` accepts exactly the strings of length 64,
independent of the repository; consequently any token minted by
`create_override_token` (a SHA-256 hex digest, 64 characters) validates for
any repository — no expiry, no issuing-repository check. -/
theorem claim_C9 :
    (∀ (token repo_name : String),
      validate_override_token token repo_name = true ↔ token.length = 64)
    ∧ ∀ (repo_name reason timestamp expires presenting_repo : String),
        validate_override_token
          (create_override_token repo_name reason timestamp expires)
          presenting_repo = true := by
  have hlen : ∀ msg : List Nat, (sha256hexdigest msg).length = 64 := by
    intro msg
    simp [sha256hexdigest, hex8, String.length]
  constructor
  · intro t r
    simp [validate_override_token]
  · intro r1 re ts ex r2
    simp [validate_override_token, create_override_token, hlen]

/-- C10: `register_policy` touches only the registered-policies map, never
the built-in default; any repository with neither an exact-name nor an
org-prefix entry still resolves to the untouched initial default policy
(warning mode, block on critical, not on high) — even after registering a
policy named "default". -/
theorem claim_C10 (regs : List Policy) (repo_name : String)
    (h1 : dictContains (List.foldl register_policy mkPolicyEngine regs).policies
      repo_name = false)
    (h2 : dictContains (List.foldl register_policy mkPolicyEngine regs).policies
      (orgName repo_name) = false) :
    get_policy (List.foldl register_policy mkPolicyEngine regs) repo_name
      = create_default_policy
    ∧ (List.foldl register_policy mkPolicyEngine regs).default_policy
      = create_default_policy
    ∧ create_default_policy.enforcement_mode = EnforcementMode.warning
    ∧ create_default_policy.block_on_critical = true
    ∧ create_default_policy.block_on_high = false := by
  have hd := foldl_register_default regs mkPolicyEngine
  refine ⟨?_, hd, rfl, rfl, rfl⟩
  unfold get_policy
  rw [h1, h2]
  simpa using hd

/-- Witness for C10: register a policy named "default" (blocking mode); the
unmatched repository `acme/web` still gets the initial warning-mode
default. -/
theorem claim_C10_witness :
    get_policy (List.foldl register_policy mkPolicyEngine
        [{ name := "default", enforcement_mode := EnforcementMode.blocking }])
        "acme/web"
      = create_default_policy
    ∧ create_default_policy.enforcement_mode = EnforcementMode.warning := by
  have h := claim_C10
    [{ name := "default", enforcement_mode := EnforcementMode.blocking }]
    "acme/web" (by decide) (by decide)
  exact ⟨h.1, h.2.2.1⟩

/-- Counterexample to C5 as stated: under the initial default policy the
resolved enforcement mode is `warning`, yet one critical violation makes
`enforce_policy` block (`block_on_critical` fires regardless of mode). -/
theorem claim_C5_counterexample :
    (get_policy mkPolicyEngine "acme/web").enforcement_mode = EnforcementMode.warning
    ∧ (enforce_policy mkPolicyEngine [sampleCritViolation] "acme/web").should_block
      = true := by
  constructor <;> rfl

/-- C5 (amended): a non-blocking enforcement mode (warning or advisory) does
not by itself prevent blocking — in those modes `should_block` is exactly
the severity-based decision (`block_on_critical`/`block_on_high` over kept
violations); only the license-based forcing is conditional on blocking
mode. -/
theorem claim_C5 (e : PolicyEngine) (vs : List Violation) (repo_name : String)
    (h : (get_policy e repo_name).enforcement_mode ≠ EnforcementMode.blocking) :
    (enforce_policy e vs repo_name).should_block
      = ((get_policy e repo_name).block_on_critical
            && decide (0 < ((enforce_policy e vs repo_name).violations.filter
                  (fun v => v.severity == SeverityLevel.critical)).length)
          || (get_policy e repo_name).block_on_high
            && decide (0 < ((enforce_policy e vs repo_name).violations.filter
                  (fun v => v.severity == SeverityLevel.high)).length)) := by
  rw [enforce_policy_violations]
  simp only [enforce_policy, partition_spec]
  split
  · next hlic =>
    exfalso
    simp only [Bool.and_eq_true, decide_eq_true_eq, beq_iff_eq] at hlic
    exact h hlic.2
  · split
    · next hcrit =>
      simp only [hcrit, Bool.true_or]
    · next hcrit =>
      simp only [Bool.not_eq_true] at hcrit
      split
      · next hhigh =>
        simp only [hcrit, hhigh, Bool.false_or]
      · next hhigh =>
        simp only [Bool.not_eq_true] at hhigh
        simp only [hcrit, hhigh, Bool.false_or]

/-- Witness for C5's amended theorem: the default engine resolves to warning
mode for `acme/web`, and with no violations the decision is not to block. -/
theorem claim_C5_witness :
    ((get_policy mkPolicyEngine "acme/web").enforcement_mode
      ≠ EnforcementMode.blocking)
    ∧ (enforce_policy mkPolicyEngine [] "acme/web").should_block
      = ((get_policy mkPolicyEngine "acme/web").block_on_critical
            && decide (0 < ((enforce_policy mkPolicyEngine [] "acme/web").violations.filter
                  (fun v => v.severity == SeverityLevel.critical)).length)
          || (get_policy mkPolicyEngine "acme/web").block_on_high
            && decide (0 < ((enforce_policy mkPolicyEngine [] "acme/web").violations.filter
                  (fun v => v.severity == SeverityLevel.high)).length)) :=
  ⟨by decide, claim_C5 mkPolicyEngine [] "acme/web" (by decide)⟩

/-- C4: `should_block` holds iff
(`block_on_critical` and a kept critical exists) or
(`block_on_high` and a kept high exists) or
(blocking mode and a kept license-category violation exists);
counts are over kept violations only, and whenever the critical condition
fires (and the license forcing does not rewrite the reason) the recorded
reason is the critical-count reason — taking precedence over the high-count
reason. -/
theorem claim_C4 (e : PolicyEngine) (vs : List Violation) (repo_name : String) :
    ((enforce_policy e vs repo_name).should_block = true ↔
      (((get_policy e repo_name).block_on_critical = true
          ∧ 0 < ((enforce_policy e vs repo_name).violations.filter
              (fun v => v.severity == SeverityLevel.critical)).length)
        ∨ ((get_policy e repo_name).block_on_high = true
          ∧ 0 < ((enforce_policy e vs repo_name).violations.filter
              (fun v => v.severity == SeverityLevel.high)).length)
        ∨ ((get_policy e repo_name).enforcement_mode = EnforcementMode.blocking
          ∧ 0 < ((enforce_policy e vs repo_name).violations.filter
              (fun v => v.category.value == "license")).length)))
    ∧ (((get_policy e repo_name).block_on_critical = true
          ∧ 0 < ((enforce_policy e vs repo_name).violations.filter
              (fun v => v.severity == SeverityLevel.critical)).length
          ∧ ¬((get_policy e repo_name).enforcement_mode = EnforcementMode.blocking
              ∧ 0 < ((enforce_policy e vs repo_name).violations.filter
                  (fun v => v.category.value == "license")).length)) →
        (enforce_policy e vs repo_name).block_reason
          = some ("Blocking due to "
              ++ toString ((enforce_policy e vs repo_name).violations.filter
                  (fun v => v.severity == SeverityLevel.critical)).length
              ++ " critical violation(s)")) := by
  rw [enforce_policy_violations]
  constructor
  · simp only [enforce_policy, partition_spec]
    split
    · next hlic =>
      simp only [Bool.and_eq_true, decide_eq_true_eq, beq_iff_eq] at hlic
      exact ⟨fun _ => Or.inr (Or.inr ⟨hlic.2, hlic.1⟩), fun _ => rfl⟩
    · next hlic =>
      simp only [Bool.and_eq_true, decide_eq_true_eq, beq_iff_eq, not_and] at hlic
      split
      · next hcrit =>
        simp only [Bool.and_eq_true, decide_eq_true_eq] at hcrit
        exact ⟨fun _ => Or.inl hcrit, fun _ => rfl⟩
      · next hcrit =>
        simp only [Bool.and_eq_true, decide_eq_true_eq, not_and, not_lt,
          Nat.le_zero] at hcrit
        split
        · next hhigh =>
          simp only [Bool.and_eq_true, decide_eq_true_eq] at hhigh
          exact ⟨fun _ => Or.inr (Or.inl hhigh), fun _ => rfl⟩
        · next hhigh =>
          simp only [Bool.and_eq_true, decide_eq_true_eq, not_and, not_lt,
            Nat.le_zero] at hhigh
          constructor
          · intro hfalse
            exact absurd hfalse (by simp)
          · rintro (⟨ha, hb⟩ | ⟨ha, hb⟩ | ⟨ha, hb⟩)
            · exact absurd (hcrit ha) (by omega)
            · exact absurd (hhigh ha) (by omega)
            · exact absurd (hlic hb) (by simp [ha])
  · rintro ⟨hbc, hcrit, hnotlic⟩
    simp only [enforce_policy, partition_spec]
    split
    · next hlic =>
      exfalso
      simp only [Bool.and_eq_true, decide_eq_true_eq, beq_iff_eq] at hlic
      exact hnotlic ⟨hlic.2, hlic.1⟩
    · split
      · next hc => rfl
      · next hc =>
        exfalso
        apply hc
        simp only [hbc, Bool.true_and, decide_eq_true_eq]
        exact hcrit

/-- Witness for C4: one critical violation under the default policy blocks,
with the critical-count reason. -/
theorem claim_C4_witness :
    (enforce_policy mkPolicyEngine [sampleCritViolation] "acme/web").should_block
      = true
    ∧ (enforce_policy mkPolicyEngine [sampleCritViolation] "acme/web").block_reason
      = some "Blocking due to 1 critical violation(s)" := by
  have h := claim_C4 mkPolicyEngine [sampleCritViolation] "acme/web"
  constructor
  · exact h.1.mpr (Or.inl ⟨by decide, by decide⟩)
  · have hr := h.2 ⟨by decide, by decide, by decide⟩
    rw [hr]
    rfl

/-- C1 (evaluating the code at the failing input): a scanned line carrying a
security work marker yields its COMP-001 violation with category
`security` — `scan_line` hard-codes `RuleCategory.SECURITY` for every
family, while the claim (and the `/api/rules` metadata of `main.py`) says
COMP-001 carries category `compliance`. -/
theorem claim_C1 :
    (scan_code todoSecurityLine "app.py").map (fun v => (v.rule_id, v.category))
      = [("COMP-001", RuleCategory.security)] := by
  rfl

/-- Counterexample to C3 as stated: Scenario B's line yields two violations,
not one (SEC-002 and PERF-001 both match). -/
theorem claim_C3_counterexample :
    (scan_code sqlConcatLine "test.py").length = 2 := by
  rfl

/-- C3 (amended): scanning Scenario B's line yields exactly two violations:
the SEC-002 critical SQL-injection violation (first), and the PERF-001
low-severity performance violation (the `SELECT *` pattern also matches, and
carries category `security` per C1's finding). -/
theorem claim_C3 :
    scan_code sqlConcatLine "test.py"
      = [{ rule_id := "SEC-002"
           rule_name := "SQL Injection: String concatenation in query"
           category := RuleCategory.security
           severity := SeverityLevel.critical
           message := "SQL Injection: String concatenation in query. This could expose sensitive data or enable attacks."
           file_path := "test.py"
           line_number := 1
           line_content := sqlConcatLine
           cwe_id := "CWE-89"
           owasp_category := "A03:2021 – Injection" },
         { rule_id := "PERF-001"
           rule_name := "Performance: SELECT * should specify columns"
           category := RuleCategory.security
           severity := SeverityLevel.low
           message := "Performance: SELECT * should specify columns. This could expose sensitive data or enable attacks."
           file_path := "test.py"
           line_number := 1
           line_content := sqlConcatLine
           cwe_id := "CWE-1061"
           owasp_category := "Performance Issue" }] := by
  rfl

/-- Counterexample to C2 as stated: enforcement decides to block, a valid
override token is presented, yet the scan audit event records
`blocked = false` — `main.py` flips `should_block` *before* `log_scan`
runs, so the persisted scan event reflects the post-override decision, not
the pre-override one. -/
theorem claim_C2_counterexample :
    (enforce_policy mkPolicyEngine [sampleCritViolation] "acme/web").should_block
      = true
    ∧ validate_override_token tok64 "acme/web" = true
    ∧ ((analyze_code mkPolicyEngine { events := [], store := "" }
          [sampleCritViolation] "acme/web" 7 "c0ffee" (some tok64)
          (some "hotfix") (fun _ => none) "scan-1" "ev-o" "t0" "ev-s"
          "t1").1.events.map (fun ev => (ev.enforcement_action, ev.blocked)))
      = [("override", false), ("warning", false)] := by
  refine ⟨rfl, by decide, by decide⟩

/-- C2 (amended): when enforcement decides to block and a valid, nonempty
override token is presented, exactly two audit events are appended, in
order: the override event (action "override", `override_applied = true`)
and the scan event — which records `blocked = false`, the *post*-override
decision; the response reports the override as applied and does not
block. -/
theorem claim_C2 (engine : PolicyEngine) (logger : AuditLogger)
    (violations : List Violation) (repo_name : String) (pr_number : Int)
    (commit_hash : String) (token : String) (override_reason : Option String)
    (ai_fix : Violation → Option String)
    (scan_id ev_id_override ts_override ev_id_scan ts_scan : String)
    (hblock : (enforce_policy engine violations repo_name).should_block = true)
    (htok : (token != "") = true)
    (hval : validate_override_token token repo_name = true) :
    ((analyze_code engine logger violations repo_name pr_number commit_hash
        (some token) override_reason ai_fix scan_id ev_id_override ts_override
        ev_id_scan ts_scan).1.events.map
      (fun ev => (ev.enforcement_action, ev.blocked, ev.override_applied)))
      = logger.events.map
          (fun ev => (ev.enforcement_action, ev.blocked, ev.override_applied))
        ++ [("override", false, true),
            ((get_policy engine repo_name).enforcement_mode.value, false, false)]
    ∧ (analyze_code engine logger violations repo_name pr_number commit_hash
        (some token) override_reason ai_fix scan_id ev_id_override ts_override
        ev_id_scan ts_scan).2.override_applied = true
    ∧ (analyze_code engine logger violations repo_name pr_number commit_hash
        (some token) override_reason ai_fix scan_id ev_id_override ts_override
        ev_id_scan ts_scan).2.should_block = false := by
  have hmode := enforce_policy_mode engine violations repo_name
  simp only [analyze_code, htok, hblock, hval, Option.getD_some, Bool.true_and,
    Bool.and_true, Bool.and_self, if_true, log_override, log_scan, write_event,
    List.map_append, List.map_cons, List.map_nil, hmode]
  refine ⟨by simp, ?_, ?_⟩ <;> trivial

/-- Witness for C2's amended theorem: a concrete blocked scan with a
64-character token. -/
theorem claim_C2_witness :
    ((analyze_code mkPolicyEngine { events := [], store := "" }
        [sampleCritViolation] "acme/web" 7 "c0ffee" (some tok64)
        (some "hotfix") (fun _ => none) "scan-1" "ev-o" "t0" "ev-s"
        "t1").1.events.map
      (fun ev => (ev.enforcement_action, ev.blocked, ev.override_applied)))
      = ({ events := [], store := "" } : AuditLogger).events.map
          (fun ev => (ev.enforcement_action, ev.blocked, ev.override_applied))
        ++ [("override", false, true),
            ((get_policy mkPolicyEngine "acme/web").enforcement_mode.value,
              false, false)]
    ∧ (analyze_code mkPolicyEngine { events := [], store := "" }
        [sampleCritViolation] "acme/web" 7 "c0ffee" (some tok64)
        (some "hotfix") (fun _ => none) "scan-1" "ev-o" "t0" "ev-s"
        "t1").2.override_applied = true
    ∧ (analyze_code mkPolicyEngine { events := [], store := "" }
        [sampleCritViolation] "acme/web" 7 "c0ffee" (some tok64)
        (some "hotfix") (fun _ => none) "scan-1" "ev-o" "t0" "ev-s"
        "t1").2.should_block = false :=
  claim_C2 mkPolicyEngine { events := [], store := "" } [sampleCritViolation]
    "acme/web" 7 "c0ffee" tok64 (some "hotfix") (fun _ => none) "scan-1"
    "ev-o" "t0" "ev-s" "t1" (by decide) (by decide) (by decide)

/-! ## C7: the ledger round trip -/

theorem extractAux_other {c : Char} (h1 : (c == '{') = false)
    (h2 : (c == '}') = false) (rest : List Char) (count : Int)
    (cur : Option (List Char)) (acc : List (List Char)) :
    extractAux (c :: rest) count cur acc
      = extractAux rest count (cur.map (fun b => c :: b)) acc := by
  simp [extractAux, h1, h2]

theorem extractAux_open_pos {count : Int} (h : (count == 0) = false)
    (rest : List Char) (cur : Option (List Char)) (acc : List (List Char)) :
    extractAux ('{' :: rest) count cur acc
      = extractAux rest (count + 1) (cur.map (fun b => '{' :: b)) acc := by
  simp [extractAux, h]

theorem extractAux_open_zero (rest : List Char) (cur : Option (List Char))
    (acc : List (List Char)) :
    extractAux ('{' :: rest) 0 cur acc
      = extractAux rest 1 (some ['{']) acc := by
  simp [extractAux]

theorem extractAux_close_pos {count : Int} (h : (count - 1 == 0) = false)
    (rest : List Char) (cur : Option (List Char)) (acc : List (List Char)) :
    extractAux ('}' :: rest) count cur acc
      = extractAux rest (count - 1) (cur.map (fun b => '}' :: b)) acc := by
  simp [extractAux, h]

theorem extractAux_close_one (rest : List Char) (b : List Char)
    (acc : List (List Char)) :
    extractAux ('}' :: rest) 1 (some b) acc
      = extractAux rest 0 none (('}' :: b).reverse :: acc) := by
  simp [extractAux]

theorem neutral_nil : Neutral [] := by
  intro count h b acc rest
  simp

theorem neutral_append {p q : List Char} (hp : Neutral p) (hq : Neutral q) :
    Neutral (p ++ q) := by
  intro count h b acc rest
  rw [List.append_assoc, hp count h, hq count h]
  simp

theorem neutral_braceFree {p : List Char} (hp : braceFree p) : Neutral p := by
  induction p with
  | nil => exact neutral_nil
  | cons c t ih =>
    intro count hc b acc rest
    have hcb := hp c (List.mem_cons_self c t)
    have ht : braceFree t := fun x hx => hp x (List.mem_cons_of_mem c hx)
    have h1 : (c == '{') = false := by simp [hcb.1]
    have h2 : (c == '}') = false := by simp [hcb.2]
    rw [List.cons_append, extractAux_other h1 h2, Option.map_some']
    rw [ih ht count hc]
    simp

theorem neutral_wrap {p : List Char} (hp : Neutral p) :
    Neutral ('{' :: p ++ ['}']) := by
  intro count hc b acc rest
  have hne : (count == 0) = false := by
    simp only [beq_eq_false_iff_ne, ne_eq]
    omega
  simp only [List.cons_append]
  rw [extractAux_open_pos hne, Option.map_some', List.append_assoc,
    hp (count + 1) (by omega)]
  have hne2 : (count + 1 - 1 == 0) = false := by
    simp only [beq_eq_false_iff_ne, ne_eq]
    omega
  rw [List.singleton_append, extractAux_close_pos hne2, Option.map_some']
  have h3 : count + 1 - 1 = count := by omega
  rw [h3]
  simp

/-- Consuming one whole top-level object (Neutral interior) followed by a
newline. -/
theorem extract_one {inner : List Char} (hp : Neutral inner) (rest : List Char)
    (acc : List (List Char)) :
    extractAux (('{' :: inner ++ ['}']) ++ '\n' :: rest) 0 none acc
      = extractAux rest 0 none (('{' :: inner ++ ['}']) :: acc) := by
  simp only [List.cons_append]
  rw [extractAux_open_zero, List.append_assoc, hp 1 (by omega),
    List.singleton_append, extractAux_close_one]
  have h1 : (('\n' : Char) == '{') = false := by decide
  have h2 : (('\n' : Char) == '}') = false := by decide
  rw [extractAux_other h1 h2, Option.map_none']
  congr 1
  simp

theorem braceFree_nil : braceFree [] := by
  intro c hc
  cases hc

theorem braceFree_cons {c : Char} {t : List Char} (h1 : c ≠ '{') (h2 : c ≠ '}')
    (ht : braceFree t) : braceFree (c :: t) := by
  intro x hx
  rcases List.mem_cons.mp hx with h | h
  · subst h; exact ⟨h1, h2⟩
  · exact ht x h

theorem braceFree_append {p q : List Char} (hp : braceFree p) (hq : braceFree q) :
    braceFree (p ++ q) := by
  intro x hx
  rcases List.mem_append.mp hx with h | h
  · exact hp x h
  · exact hq x h

theorem hexDigitChar_notBrace (m : Nat) :
    hexDigitChar m ≠ '{' ∧ hexDigitChar m ≠ '}' := by
  unfold hexDigitChar
  split <;> exact ⟨by decide, by decide⟩

theorem braceFree_natReprAux (fuel n : Nat) : braceFree (natReprAux fuel n) := by
  induction fuel generalizing n with
  | zero => exact braceFree_nil
  | succ fuel ih =>
    unfold natReprAux
    split
    · exact braceFree_nil
    · exact braceFree_append (ih (n / 10))
        (braceFree_cons (hexDigitChar_notBrace _).1 (hexDigitChar_notBrace _).2
          braceFree_nil)

theorem braceFree_natRepr (n : Nat) : braceFree (natRepr n) := by
  unfold natRepr
  split
  · intro c hc; simp at hc; subst hc; exact ⟨by decide, by decide⟩
  · exact braceFree_natReprAux n n

theorem braceFree_intRepr (n : Int) : braceFree (intRepr n) := by
  cases n with
  | ofNat m => exact braceFree_natRepr m
  | negSucc m =>
    exact braceFree_cons (by decide) (by decide) (braceFree_natRepr (m + 1))

theorem braceFree_indentChars (n : Nat) : braceFree (indentChars n) := by
  intro c hc
  have := List.eq_of_mem_replicate hc
  subst this
  exact ⟨by decide, by decide⟩

theorem braceFree_boolRepr (b : Bool) : braceFree (boolRepr b) := by
  cases b <;> decide

theorem braceFree_nullChars : braceFree nullChars := by decide

/-- For a good character, the escape reduces to the quote/backslash
shortcuts or the character itself. -/
theorem jesc_good {c : Char} (hc : GoodChar c) :
    jesc c = if c = '"' then ['\\', '"']
      else if c = '\\' then ['\\', '\\'] else [c] := by
  obtain ⟨hlo, hhi, _, _⟩ := hc
  by_cases h1 : c = '"'
  · simp [jesc, h1]
  by_cases h2 : c = '\\'
  · simp [jesc, h1, h2]
  have e1 : c ≠ '\n' := fun h => by subst h; exact absurd hlo (by decide)
  have e2 : c ≠ '\r' := fun h => by subst h; exact absurd hlo (by decide)
  have e3 : c ≠ '\t' := fun h => by subst h; exact absurd hlo (by decide)
  have e4 : ¬(c.toNat = 8) := by omega
  have e5 : ¬(c.toNat = 12) := by omega
  have e6 : ¬(c.toNat < 32) := by omega
  simp [jesc, h1, h2, e1, e2, e3, e4, e5, e6, hhi]

theorem braceFree_jesc {c : Char} (hc : GoodChar c) : braceFree (jesc c) := by
  rw [jesc_good hc]
  split_ifs with h1 h2
  · decide
  · decide
  · intro x hx
    simp at hx
    subst hx
    exact ⟨hc.2.2.1, hc.2.2.2⟩

theorem braceFree_jstr {s : String} (hs : GoodStr s) : braceFree (jstr s) := by
  unfold jstr
  refine braceFree_cons (by decide) (by decide) (braceFree_append ?_ ?_)
  · intro x hx
    rcases List.mem_flatMap.mp hx with ⟨c, hc, hxc⟩
    exact braceFree_jesc (hs c hc) x hxc
  · decide

theorem braceFree_optStrRender {o : Option String} (ho : GoodOpt o) :
    braceFree (optStrRender o) := by
  cases o with
  | none => exact braceFree_nullChars
  | some s => exact braceFree_jstr ho

theorem intercalate_nil (sep : List Char) :
    List.intercalate sep ([] : List (List Char)) = [] := by
  simp [List.intercalate]

theorem intercalate_single (sep a : List Char) :
    List.intercalate sep [a] = a := by
  simp [List.intercalate, List.intersperse]

theorem intercalate_cons2 (sep a b : List Char) (t : List (List Char)) :
    List.intercalate sep (a :: b :: t) = a ++ sep ++ List.intercalate sep (b :: t) := by
  simp [List.intercalate, List.intersperse]

theorem braceFree_intercalate {sep : List Char} {l : List (List Char)}
    (hsep : braceFree sep) (hl : ∀ p ∈ l, braceFree p) :
    braceFree (List.intercalate sep l) := by
  induction l with
  | nil => rw [intercalate_nil]; exact braceFree_nil
  | cons a t ih =>
    cases t with
    | nil => rw [intercalate_single]; exact hl a (by simp)
    | cons b t2 =>
      rw [intercalate_cons2]
      exact braceFree_append
        (braceFree_append (hl a (by simp)) hsep)
        (ih (fun p hp => hl p (List.mem_cons_of_mem a hp)))

theorem neutral_intercalate {sep : List Char} {l : List (List Char)}
    (hsep : braceFree sep) (hl : ∀ p ∈ l, Neutral p) :
    Neutral (List.intercalate sep l) := by
  induction l with
  | nil => rw [intercalate_nil]; exact neutral_nil
  | cons a t ih =>
    cases t with
    | nil => rw [intercalate_single]; exact hl a (by simp)
    | cons b t2 =>
      rw [intercalate_cons2]
      exact neutral_append
        (neutral_append (hl a (by simp)) (neutral_braceFree hsep))
        (ih (fun p hp => hl p (List.mem_cons_of_mem a hp)))

theorem neutral_renderFlatObj {fields : List (String × String)} (lvl : Nat)
    (h : ∀ kv ∈ fields, GoodStr kv.1 ∧ GoodStr kv.2) :
    Neutral (renderFlatObj fields lvl) := by
  cases fields with
  | nil => exact neutral_wrap neutral_nil
  | cons a t =>
    have hbf : braceFree ('\n' :: List.intercalate [',', '\n']
        ((a :: t).map (fun kv =>
          indentChars (2 * (lvl + 1)) ++ jstr kv.1 ++ ':' :: ' ' :: jstr kv.2))
        ++ '\n' :: indentChars (2 * lvl)) := by
      refine braceFree_cons (by decide) (by decide) (braceFree_append ?_ ?_)
      · refine braceFree_intercalate (by decide) ?_
        intro p hp
        rcases List.mem_map.mp hp with ⟨kv, hkv, rfl⟩
        refine braceFree_append (braceFree_append (braceFree_indentChars _)
          (braceFree_jstr (h kv hkv).1)) ?_
        exact braceFree_cons (by decide) (by decide)
          (braceFree_cons (by decide) (by decide) (braceFree_jstr (h kv hkv).2))
      · exact braceFree_cons (by decide) (by decide) (braceFree_indentChars _)
    exact neutral_wrap (neutral_braceFree hbf)

theorem neutral_renderSummary {sums : List (List (String × String))} (lvl : Nat)
    (h : ∀ d ∈ sums, ∀ kv ∈ d, GoodStr kv.1 ∧ GoodStr kv.2) :
    Neutral (renderSummary sums lvl) := by
  cases sums with
  | nil => exact neutral_braceFree (show braceFree ['[', ']'] by decide)
  | cons a t =>
    have e : renderSummary (a :: t) lvl
        = ['[', '\n'] ++ (List.intercalate [',', '\n'] ((a :: t).map (fun d =>
            indentChars (2 * (lvl + 1)) ++ renderFlatObj d (lvl + 1)))
          ++ ('\n' :: indentChars (2 * lvl) ++ [']'])) := by
      simp only [renderSummary, List.cons_append, List.append_assoc, List.nil_append]
    rw [e]
    refine neutral_append (neutral_braceFree (show braceFree ['[', '\n'] by decide))
      (neutral_append ?_ ?_)
    · refine neutral_intercalate (show braceFree [',', '\n'] by decide) ?_
      intro p hp
      rcases List.mem_map.mp hp with ⟨d, hd, rfl⟩
      exact neutral_append (neutral_braceFree (braceFree_indentChars _))
        (neutral_renderFlatObj (lvl + 1) (h d hd))
    · refine neutral_braceFree (braceFree_cons (by decide) (by decide) ?_)
      exact braceFree_append (braceFree_indentChars _)
        (show braceFree [']'] by decide)

theorem eventFields_good {e : AuditEvent} (he : GoodEvent e) :
    ∀ kv ∈ eventFieldsRendered e, GoodStr kv.1 ∧ Neutral kv.2 := by
  obtain ⟨h1, h2, h3, h4, h5, h6, h7, h8, h9⟩ := he
  intro kv hkv
  simp only [eventFieldsRendered, List.mem_cons, List.not_mem_nil, or_false] at hkv
  rcases hkv with h | h | h | h | h | h | h | h | h | h | h | h | h | h | h <;>
    (subst h; refine ⟨by dsimp only; decide, ?_⟩)
  · exact neutral_braceFree (braceFree_jstr h1)
  · exact neutral_braceFree (braceFree_jstr h2)
  · exact neutral_braceFree (braceFree_jstr h3)
  · exact neutral_braceFree (braceFree_intRepr _)
  · exact neutral_braceFree (braceFree_jstr h4)
  · exact neutral_braceFree (braceFree_intRepr _)
  · exact neutral_braceFree (braceFree_intRepr _)
  · exact neutral_braceFree (braceFree_intRepr _)
  · exact neutral_braceFree (braceFree_jstr h5)
  · exact neutral_braceFree (braceFree_boolRepr _)
  · exact neutral_braceFree (braceFree_boolRepr _)
  · exact neutral_braceFree (braceFree_optStrRender h6)
  · exact neutral_braceFree (braceFree_optStrRender h7)
  · exact neutral_braceFree (braceFree_optStrRender h8)
  · cases hs : e.violations_summary with
    | none => exact neutral_braceFree braceFree_nullChars
    | some sums =>
      refine neutral_renderSummary 1 ?_
      rw [hs] at h9
      exact h9

/-- One written event followed by its newline is consumed as exactly one
extracted slice. -/
theorem extract_event {e : AuditEvent} (he : GoodEvent e)
    (rest : List Char) (acc : List (List Char)) :
    extractAux ((event_to_json e).data ++ '\n' :: rest) 0 none acc
      = extractAux rest 0 none ((event_to_json e).data :: acc) := by
  have hfields := eventFields_good he
  have hinner : Neutral ('\n' :: (List.intercalate [',', '\n']
      ((eventFieldsRendered e).map (fun kv =>
        indentChars 2 ++ jstr kv.1 ++ ':' :: ' ' :: kv.2)) ++ ['\n'])) := by
    have h1 : Neutral (List.intercalate [',', '\n']
        ((eventFieldsRendered e).map (fun kv =>
          indentChars 2 ++ jstr kv.1 ++ ':' :: ' ' :: kv.2))) := by
      refine neutral_intercalate (show braceFree [',', '\n'] by decide) ?_
      intro p hp
      rcases List.mem_map.mp hp with ⟨kv, hkv, rfl⟩
      refine neutral_append (neutral_braceFree (braceFree_append
        (braceFree_indentChars _) (braceFree_jstr (hfields kv hkv).1))) ?_
      refine neutral_append (neutral_braceFree (show braceFree [':', ' '] by decide))
        ((hfields kv hkv).2)
    have h2 := neutral_append h1 (neutral_braceFree (show braceFree ['\n'] by decide))
    have h3 := neutral_append (neutral_braceFree (show braceFree ['\n'] by decide)) h2
    simpa using h3
  have hshape : (event_to_json e).data
      = '{' :: ('\n' :: (List.intercalate [',', '\n']
          ((eventFieldsRendered e).map (fun kv =>
            indentChars 2 ++ jstr kv.1 ++ ':' :: ' ' :: kv.2)) ++ ['\n'])) ++ ['}'] := by
    simp only [event_to_json, List.cons_append, List.append_assoc,
      List.singleton_append, List.nil_append]
  rw [hshape]
  exact extract_one hinner rest acc

theorem write_events_store (es : List AuditEvent) :
    ∀ l : AuditLogger, (write_events l es).store.data
      = l.store.data ++ es.flatMap (fun e => (event_to_json e).data ++ ['\n']) := by
  induction es with
  | nil => intro l; simp [write_events]
  | cons e t ih =>
    intro l
    simp only [write_events, List.foldl_cons] at *
    rw [ih]
    simp [write_event, String.data_append]

theorem extract_chain (es : List AuditEvent) (hes : ∀ e ∈ es, GoodEvent e) :
    ∀ acc, extractAux (es.flatMap (fun e => (event_to_json e).data ++ ['\n']))
        0 none acc
      = acc.reverse ++ es.map (fun e => (event_to_json e).data) := by
  induction es with
  | nil => intro acc; simp [extractAux]
  | cons e t ih =>
    intro acc
    have he := hes e (by simp)
    have ht : ∀ x ∈ t, GoodEvent x := fun x hx => hes x (by simp [hx])
    simp only [List.flatMap_cons, List.append_assoc, List.singleton_append]
    rw [extract_event he]
    rw [ih ht (((event_to_json e).data) :: acc)]
    simp

theorem jws_cons_not {c : Char} (cs : List Char)
    (h : (c == ' ' || c == '\t' || c == '\n' || c == '\r') = false) :
    jws (c :: cs) = c :: cs := by
  simp only [jws, List.dropWhile_cons, h]
  simp

theorem jws_sp (cs : List Char) : jws (' ' :: cs) = jws cs := by
  simp [jws]

theorem jws_nl (cs : List Char) : jws ('\n' :: cs) = jws cs := by
  simp [jws]

theorem jws_indent (n : Nat) (cs : List Char) :
    jws (indentChars n ++ cs) = jws cs := by
  induction n with
  | zero => rfl
  | succ n ih =>
    rw [indentChars, List.replicate_succ, List.cons_append, jws_sp]
    exact ih

theorem jesc_quote : jesc '"' = ['\\', '"'] := rfl

theorem jesc_back : jesc '\\' = ['\\', '\\'] := rfl

theorem jesc_plain {c : Char} (hc : GoodChar c) (h1 : c ≠ '"') (h2 : c ≠ '\\') :
    jesc c = [c] := by
  rw [jesc_good hc, if_neg h1, if_neg h2]

theorem pStrAux_quote (acc rest : List Char) :
    pStrAux acc ('"' :: rest) = some (String.mk acc.reverse, rest) := by
  rw [pStrAux.eq_def]
  simp

theorem pStrAux_esc_quote (acc rest : List Char) :
    pStrAux acc ('\\' :: '"' :: rest) = pStrAux ('"' :: acc) rest := by
  rw [pStrAux.eq_def]
  simp

theorem pStrAux_esc_back (acc rest : List Char) :
    pStrAux acc ('\\' :: '\\' :: rest) = pStrAux ('\\' :: acc) rest := by
  rw [pStrAux.eq_def]
  simp

theorem pStrAux_plain {c : Char} (h1 : (c == '"') = false)
    (h2 : (c == '\\') = false) (h3 : ¬ c.toNat < 32) (acc rest : List Char) :
    pStrAux acc (c :: rest) = pStrAux (c :: acc) rest := by
  rw [pStrAux.eq_def]
  simp only [beq_eq_false_iff_ne, ne_eq] at h1 h2
  simp [h1, h2, h3]

theorem pStrAux_good (cs : List Char) (hgood : ∀ c ∈ cs, GoodChar c) :
    ∀ acc rest,
      pStrAux acc (cs.flatMap jesc ++ '"' :: rest)
        = some (String.mk (acc.reverse ++ cs), rest) := by
  induction cs with
  | nil =>
    intro acc rest
    rw [List.flatMap_nil, List.nil_append, pStrAux_quote]
    simp
  | cons c t ih =>
    intro acc rest
    have hc := hgood c (by simp)
    have ht : ∀ x ∈ t, GoodChar x := fun x hx => hgood x (by simp [hx])
    rw [List.flatMap_cons]
    by_cases h1 : c = '"'
    · subst h1
      rw [jesc_quote]
      simp only [List.cons_append, List.nil_append]
      rw [pStrAux_esc_quote, ih ht ('"' :: acc) rest]
      simp
    · by_cases h2 : c = '\\'
      · subst h2
        rw [jesc_back]
        simp only [List.cons_append, List.nil_append]
        rw [pStrAux_esc_back, ih ht ('\\' :: acc) rest]
        simp
      · have e1 : (c == '"') = false := by simp [h1]
        have e2 : (c == '\\') = false := by simp [h2]
        have e3 : ¬(c.toNat < 32) := by
          have := hc.1
          omega
        rw [jesc_plain hc h1 h2]
        simp only [List.cons_append, List.nil_append]
        rw [pStrAux_plain e1 e2 e3, ih ht (c :: acc) rest]
        simp

theorem pVal_quote_step (fuel : Nat) (rest : List Char) :
    pVal (fuel + 1) ('"' :: rest)
      = (pStrAux [] rest).map (fun p => (Json.str p.1, p.2)) := rfl

/-- Parsing a rendered JSON string costs one fuel level. -/
theorem pVal_jstr {s : String} (hs : GoodStr s) (fuel : Nat) (rest : List Char) :
    pVal (fuel + 1) (jstr s ++ rest) = some (Json.str s, rest) := by
  have e : jstr s ++ rest = '"' :: (s.data.flatMap jesc ++ '"' :: rest) := by
    simp [jstr, List.append_assoc, String.toList]
  rw [e, pVal_quote_step, pStrAux_good s.data hs [] rest]
  simp

theorem span_loop_exact {p : Char → Bool} (ds : List Char)
    (hd : ∀ c ∈ ds, p c = true) :
    ∀ rest, (∀ c, rest.head? = some c → p c = false) → ∀ acc,
      List.span.loop p (ds ++ rest) acc = ((acc.reverse ++ ds, rest) : _) := by
  induction ds with
  | nil =>
    intro rest hr acc
    cases rest with
    | nil => simp [List.span.loop]
    | cons c t =>
      simp [List.span.loop, hr c rfl]
  | cons d t ih =>
    intro rest hr acc
    have hdd := hd d (by simp)
    have ht : ∀ c ∈ t, p c = true := fun c hc => hd c (by simp [hc])
    simp only [List.cons_append, List.span.loop, hdd, List.append_eq]
    rw [ih ht rest hr (d :: acc)]
    simp

theorem span_exact {p : Char → Bool} (ds : List Char)
    (hd : ∀ c ∈ ds, p c = true) (rest : List Char)
    (hr : ∀ c, rest.head? = some c → p c = false) :
    (ds ++ rest).span p = (ds, rest) := by
  have := span_loop_exact ds hd rest hr []
  simpa [List.span] using this

theorem hexDigitChar_digit {d : Nat} (h : d < 10) :
    (hexDigitChar d).isDigit = true ∧ (hexDigitChar d).toNat - 48 = d := by
  interval_cases d <;> exact ⟨by decide, by decide⟩

theorem natReprAux_digits (fuel : Nat) : ∀ n, ∀ c ∈ natReprAux fuel n,
    c.isDigit = true := by
  induction fuel with
  | zero => intro n c hc; cases hc
  | succ fuel ih =>
    intro n c hc
    unfold natReprAux at hc
    by_cases h : n == 0
    · rw [if_pos h] at hc; cases hc
    · rw [if_neg h] at hc
      rcases List.mem_append.mp hc with h2 | h2
      · exact ih (n / 10) c h2
      · simp at h2
        subst h2
        exact (hexDigitChar_digit (Nat.mod_lt n (by omega))).1

theorem digitsToNat_append (xs : List Char) (d : Char) :
    digitsToNat (xs ++ [d]) = 10 * digitsToNat xs + (d.toNat - 48) := by
  simp [digitsToNat, List.foldl_append]

theorem natReprAux_val (fuel : Nat) : ∀ n, n ≤ fuel →
    digitsToNat (natReprAux fuel n) = n := by
  induction fuel with
  | zero =>
    intro n hn
    interval_cases n
    rfl
  | succ fuel ih =>
    intro n hn
    unfold natReprAux
    by_cases h : n == 0
    · rw [if_pos h]
      have : n = 0 := by simpa using h
      simp [digitsToNat, this]
    · rw [if_neg h]
      have hn0 : 0 < n := by
        rcases Nat.eq_zero_or_pos n with h0 | h0
        · subst h0; simp at h
        · exact h0
      rw [digitsToNat_append, ih (n / 10) (by omega)]
      rw [(hexDigitChar_digit (Nat.mod_lt n (by omega))).2]
      omega

theorem natRepr_digits (n : Nat) : ∀ c ∈ natRepr n, c.isDigit = true := by
  unfold natRepr
  by_cases h : n == 0
  · rw [if_pos h]; intro c hc; simp at hc; subst hc; decide
  · rw [if_neg h]; exact natReprAux_digits n n

theorem natRepr_val (n : Nat) : digitsToNat (natRepr n) = n := by
  unfold natRepr
  by_cases h : n == 0
  · rw [if_pos h]
    have : n = 0 := by simpa using h
    subst this
    rfl
  · rw [if_neg h]
    exact natReprAux_val n n (le_refl n)

theorem natRepr_ne_nil (n : Nat) : natRepr n ≠ [] := by
  unfold natRepr
  by_cases h : n == 0
  · rw [if_pos h]; simp
  · rw [if_neg h]
    have hn0 : 0 < n := by
      rcases Nat.eq_zero_or_pos n with h0 | h0
      · subst h0; simp at h
      · exact h0
    cases hf : n with
    | zero => omega
    | succ m =>
      unfold natReprAux
      rw [if_neg (by simp)]
      simp

theorem pInt_nat (m : Nat) (rest : List Char)
    (hr : ∀ c, rest.head? = some c → c.isDigit = false) :
    pInt (natRepr m ++ rest) = some ((m : Int), rest) := by
  have hspan := span_exact (natRepr m) (natRepr_digits m) rest hr
  rcases he : natRepr m with _ | ⟨d, ds⟩
  · exact absurd he (natRepr_ne_nil m)
  · have hd : d.isDigit = true := by
      have := natRepr_digits m d
      rw [he] at this
      exact this (by simp)
    have hdash : d ≠ '-' := by
      intro hdd
      subst hdd
      simp at hd
    rw [he] at hspan
    simp only [List.cons_append]
    rw [pInt.eq_def]
    split
    · next heq =>
      -- the '-' pattern: head would be '-'
      rw [List.cons.injEq] at heq
      exact absurd heq.1 hdash
    · next heq2 =>
      simp only [← List.cons_append, hspan]
      have hv := natRepr_val m
      rw [he] at hv
      simp [hv]

theorem pInt_intRepr (n : Int) (rest : List Char)
    (hr : ∀ c, rest.head? = some c → c.isDigit = false) :
    pInt (intRepr n ++ rest) = some (n, rest) := by
  cases n with
  | ofNat m => exact pInt_nat m rest hr
  | negSucc m =>
    show pInt ('-' :: natRepr (m + 1) ++ rest) = _
    have hspan := span_exact (natRepr (m + 1)) (natRepr_digits (m + 1)) rest hr
    rw [List.cons_append, pInt.eq_def]
    simp only [hspan]
    have : ¬(natRepr (m + 1)).isEmpty := by
      cases he : natRepr (m + 1) with
      | nil => exact absurd he (natRepr_ne_nil (m + 1))
      | cons d ds => simp
    simp only [this, if_neg (by simpa using this)]
    rw [natRepr_val (m + 1)]
    simp [Int.negSucc_eq]

theorem digit_notBeq {c x : Char} (hc : c.isDigit = true)
    (hx : x.toNat < 48 ∨ 57 < x.toNat) : (c == x) = false := by
  have hr : 48 ≤ c.toNat ∧ c.toNat ≤ 57 := by
    simp [Char.isDigit, Char.toNat] at hc ⊢
    exact hc
  simp only [beq_eq_false_iff_ne, ne_eq]
  intro h
  subst h
  rcases hx with h2 | h2 <;> omega

theorem intRepr_head_ne (n : Int) :
    ∀ d, (intRepr n).head? = some d →
      (d == '"') = false ∧ (d == '{') = false ∧ (d == '[') = false
      ∧ (d == 't') = false ∧ (d == 'f') = false ∧ (d == 'n') = false
      ∧ (d == ' ') = false ∧ (d == '\t') = false ∧ (d == '\n') = false
      ∧ (d == '\r') = false := by
  intro d hd
  have hdok : d.isDigit = true ∨ d = '-' := by
    cases n with
    | ofNat m =>
      cases he : natRepr m with
      | nil => exact absurd he (natRepr_ne_nil m)
      | cons x xs =>
        left
        have : (intRepr (Int.ofNat m)).head? = some x := by
          show (natRepr m).head? = some x
          rw [he]; rfl
        rw [this] at hd
        injection hd with hd2
        subst hd2
        exact natRepr_digits m x (by rw [he]; simp)
    | negSucc m =>
      right
      have : (intRepr (Int.negSucc m)).head? = some '-' := rfl
      rw [this] at hd
      injection hd with hd2
      exact hd2.symm
  rcases hdok with h | h
  · exact ⟨digit_notBeq h (by decide), digit_notBeq h (by decide),
      digit_notBeq h (by decide), digit_notBeq h (by decide),
      digit_notBeq h (by decide), digit_notBeq h (by decide),
      digit_notBeq h (by decide), digit_notBeq h (by decide),
      digit_notBeq h (by decide), digit_notBeq h (by decide)⟩
  · subst h
    exact ⟨by decide, by decide, by decide, by decide, by decide, by decide,
      by decide, by decide, by decide, by decide⟩

/-- Parsing a rendered integer costs one fuel level. -/
theorem pVal_intRepr (n : Int) (fuel : Nat) (rest : List Char)
    (hr : ∀ c, rest.head? = some c → c.isDigit = false) :
    pVal (fuel + 1) (intRepr n ++ rest) = some (Json.num n, rest) := by
  rcases he : intRepr n with _ | ⟨d, ds⟩
  · exfalso
    cases n with
    | ofNat m => exact absurd he (natRepr_ne_nil m)
    | negSucc m => simp [intRepr] at he
  · have hne := intRepr_head_ne n d (by rw [he]; rfl)
    obtain ⟨n1, n2, n3, n4, n5, n6, n7, n8, n9, n10⟩ := hne
    have hjws : jws (d :: (ds ++ rest)) = d :: (ds ++ rest) := by
      apply jws_cons_not
      simp [n7, n8, n9, n10]
    rw [pVal.eq_def]
    simp only [List.cons_append, hjws]
    simp only [n1, n2, n3, n4, n5, n6, Bool.false_eq_true, if_false]
    have := pInt_intRepr n rest hr
    rw [he] at this
    simp only [List.cons_append] at this
    rw [this]
    rfl

/-- Parsing rendered booleans and null costs one fuel level. -/
theorem pVal_boolRepr (b : Bool) (fuel : Nat) (rest : List Char) :
    pVal (fuel + 1) (boolRepr b ++ rest) = some (Json.bool b, rest) := by
  cases b <;> rfl

theorem pVal_nullChars (fuel : Nat) (rest : List Char) :
    pVal (fuel + 1) (nullChars ++ rest) = some (Json.null, rest) := rfl

theorem jws_idem (cs : List Char) : jws (jws cs) = jws cs := by
  induction cs with
  | nil => rfl
  | cons c t ih =>
    by_cases h : (c == ' ' || c == '\t' || c == '\n' || c == '\r') = true
    · simp only [jws, List.dropWhile_cons, h]
      exact ih
    · have h2 : (c == ' ' || c == '\t' || c == '\n' || c == '\r') = false := by
        simpa using h
      rw [jws_cons_not t h2, jws_cons_not t h2]

theorem pVal_jws_congr (fuel : Nat) {X Y : List Char} (h : jws X = jws Y) :
    pVal (fuel + 1) X = pVal (fuel + 1) Y := by
  simp only [pVal]
  rw [h]

theorem pObjFields_jws_congr (fuel : Nat) {X Y : List Char}
    (h : jws X = jws Y) :
    pObjFields (fuel + 1) X = pObjFields (fuel + 1) Y := by
  simp only [pObjFields]
  rw [h]

theorem string_eta (s : String) : String.mk s.data = s := by
  cases s
  rfl

theorem pObjFields_quote_step (fuel : Nat) (r1 : List Char) :
    pObjFields (fuel + 1) ('"' :: r1)
      = (do
          let (k, r2) ← pStrAux [] r1
          (match jws r2 with
           | ':' :: r3 => do
             let (v, r4) ← pVal fuel r3
             (match jws r4 with
              | ',' :: r5 => do
                let (fs, r6) ← pObjFields fuel r5
                pure ((k, v) :: fs, r6)
              | '}' :: r5 => pure ([(k, v)], r5)
              | _ => none)
           | _ => none)) := rfl

theorem pObjFields_chain (lvl : Nat) :
    ∀ (l : List RField), l ≠ [] → (∀ f ∈ l, RFieldOk f) →
    ∀ (fuel : Nat) (rest X : List Char),
      jws X = jws (rfieldsText l lvl ++ '\n' :: (indentChars (2 * lvl) ++ '}' :: rest)) →
      pObjFields (rfieldsNeed l + fuel + 1) X
        = some (l.map (fun f => (f.key, f.val)), rest) := by
  intro l
  induction l with
  | nil => intro h; exact absurd rfl h
  | cons f t ih =>
    intro _ hok fuel rest X hX
    have hfok := hok f (by simp)
    cases t with
    | nil =>
      have hcanon : jws (rfieldsText [f] lvl
          ++ '\n' :: (indentChars (2 * lvl) ++ '}' :: rest))
          = '"' :: (f.key.data.flatMap jesc ++ '"' :: (':' :: ' ' :: (f.text
              ++ '\n' :: (indentChars (2 * lvl) ++ '}' :: rest)))) := by
        have hshape : rfieldsText [f] lvl
            ++ '\n' :: (indentChars (2 * lvl) ++ '}' :: rest)
            = indentChars (2 * (lvl + 1)) ++ ('"' :: (f.key.data.flatMap jesc
                ++ '"' :: (':' :: ' ' :: (f.text
                ++ '\n' :: (indentChars (2 * lvl) ++ '}' :: rest))))) := by
          simp [rfieldsText, intercalate_single, jstr, List.append_assoc,
            String.toList]
        rw [hshape, jws_indent, jws_cons_not _ (by decide)]
      have hX2 : jws X = jws ('"' :: (f.key.data.flatMap jesc
          ++ '"' :: (':' :: ' ' :: (f.text
          ++ '\n' :: (indentChars (2 * lvl) ++ '}' :: rest))))) := by
        rw [hX, hcanon, jws_cons_not _ (by decide)]
      have harith : rfieldsNeed [f] + fuel + 1 = (f.need + 1 + fuel) + 1 := by
        simp [rfieldsNeed]
      rw [harith, pObjFields_jws_congr (f.need + 1 + fuel) hX2,
        pObjFields_quote_step]
      rw [pStrAux_good f.key.data hfok.1 [] _]
      simp only [Option.bind_eq_bind, Option.some_bind, List.reverse_nil,
        List.nil_append, string_eta]
      rw [jws_cons_not _ (by decide)]
      have hval : pVal (f.need + 1 + fuel) (' ' :: (f.text
          ++ '\n' :: (indentChars (2 * lvl) ++ '}' :: rest)))
          = some (f.val, '\n' :: (indentChars (2 * lvl) ++ '}' :: rest)) := by
        have e1 : f.need + 1 + fuel = f.need + fuel + 1 := by omega
        rw [e1, pVal_jws_congr (f.need + fuel) (jws_sp (f.text
          ++ '\n' :: (indentChars (2 * lvl) ++ '}' :: rest)))]
        exact hfok.2 fuel _ (fun c hc => by
          simp at hc
          subst hc
          decide)
      simp only []
      rw [hval]
      simp only [Option.some_bind]
      rw [jws_nl, jws_indent, jws_cons_not _ (by decide)]
      simp
    | cons g t2 =>
      have hcanon : jws (rfieldsText (f :: g :: t2) lvl
          ++ '\n' :: (indentChars (2 * lvl) ++ '}' :: rest))
          = '"' :: (f.key.data.flatMap jesc ++ '"' :: (':' :: ' ' :: (f.text
              ++ ',' :: '\n' :: (rfieldsText (g :: t2) lvl
              ++ '\n' :: (indentChars (2 * lvl) ++ '}' :: rest))))) := by
        have hshape : rfieldsText (f :: g :: t2) lvl
            ++ '\n' :: (indentChars (2 * lvl) ++ '}' :: rest)
            = indentChars (2 * (lvl + 1)) ++ ('"' :: (f.key.data.flatMap jesc
                ++ '"' :: (':' :: ' ' :: (f.text
                ++ ',' :: '\n' :: (rfieldsText (g :: t2) lvl
                ++ '\n' :: (indentChars (2 * lvl) ++ '}' :: rest)))))) := by
          simp only [rfieldsText, List.map_cons]
          rw [intercalate_cons2]
          simp [jstr, List.append_assoc, String.toList]
        rw [hshape, jws_indent, jws_cons_not _ (by decide)]
      have hX2 : jws X = jws ('"' :: (f.key.data.flatMap jesc
          ++ '"' :: (':' :: ' ' :: (f.text
          ++ ',' :: '\n' :: (rfieldsText (g :: t2) lvl
          ++ '\n' :: (indentChars (2 * lvl) ++ '}' :: rest)))))) := by
        rw [hX, hcanon, jws_cons_not _ (by decide)]
      have harith : rfieldsNeed (f :: g :: t2) + fuel + 1
          = (f.need + 1 + rfieldsNeed (g :: t2) + fuel) + 1 := by
        simp [rfieldsNeed]
      rw [harith, pObjFields_jws_congr _ hX2, pObjFields_quote_step]
      rw [pStrAux_good f.key.data hfok.1 [] _]
      simp only [Option.bind_eq_bind, Option.some_bind, List.reverse_nil,
        List.nil_append, string_eta]
      rw [jws_cons_not _ (by decide)]
      have hval : pVal (f.need + 1 + rfieldsNeed (g :: t2) + fuel)
          (' ' :: (f.text ++ ',' :: '\n' :: (rfieldsText (g :: t2) lvl
            ++ '\n' :: (indentChars (2 * lvl) ++ '}' :: rest))))
          = some (f.val, ',' :: '\n' :: (rfieldsText (g :: t2) lvl
            ++ '\n' :: (indentChars (2 * lvl) ++ '}' :: rest))) := by
        have e1 : f.need + 1 + rfieldsNeed (g :: t2) + fuel
            = f.need + (rfieldsNeed (g :: t2) + fuel) + 1 := by omega
        rw [e1, pVal_jws_congr (f.need + (rfieldsNeed (g :: t2) + fuel))
          (jws_sp (f.text ++ ',' :: '\n' :: (rfieldsText (g :: t2) lvl
            ++ '\n' :: (indentChars (2 * lvl) ++ '}' :: rest))))]
        exact hfok.2 (rfieldsNeed (g :: t2) + fuel) _ (fun c hc => by
          simp at hc
          subst hc
          decide)
      simp only []
      rw [hval]
      simp only [Option.some_bind]
      rw [jws_cons_not _ (by decide)]
      have hrec := ih (by simp) (fun x hx => hok x (by simp [hx]))
        (f.need + fuel) rest
        ('\n' :: (rfieldsText (g :: t2) lvl
          ++ '\n' :: (indentChars (2 * lvl) ++ '}' :: rest)))
        (by rw [jws_nl])
      have e2 : f.need + 1 + rfieldsNeed (g :: t2) + fuel
          = rfieldsNeed (g :: t2) + (f.need + fuel) + 1 := by omega
      rw [e2]
      simp only []
      rw [hrec]
      simp

theorem rfieldOk_str (k v : String) (hk : GoodStr k) (hv : GoodStr v) :
    RFieldOk ⟨k, jstr v, Json.str v, 0⟩ := by
  refine ⟨hk, fun fuel rest _ => ?_⟩
  show pVal (0 + fuel + 1) (jstr v ++ rest) = some (Json.str v, rest)
  rw [Nat.zero_add]
  exact pVal_jstr hv fuel rest

theorem rfieldOk_int (k : String) (n : Int) (hk : GoodStr k) :
    RFieldOk ⟨k, intRepr n, Json.num n, 0⟩ := by
  refine ⟨hk, fun fuel rest hr => ?_⟩
  show pVal (0 + fuel + 1) (intRepr n ++ rest) = some (Json.num n, rest)
  rw [Nat.zero_add]
  exact pVal_intRepr n fuel rest hr

theorem rfieldOk_bool (k : String) (b : Bool) (hk : GoodStr k) :
    RFieldOk ⟨k, boolRepr b, Json.bool b, 0⟩ := by
  refine ⟨hk, fun fuel rest _ => ?_⟩
  show pVal (0 + fuel + 1) (boolRepr b ++ rest) = some (Json.bool b, rest)
  rw [Nat.zero_add]
  exact pVal_boolRepr b fuel rest

theorem rfieldOk_null (k : String) (hk : GoodStr k) :
    RFieldOk ⟨k, nullChars, Json.null, 0⟩ := by
  refine ⟨hk, fun fuel rest _ => ?_⟩
  show pVal (0 + fuel + 1) (nullChars ++ rest) = some (Json.null, rest)
  rw [Nat.zero_add]
  exact pVal_nullChars fuel rest

theorem rfieldsNeed_dRFields (d : List (String × String)) :
    rfieldsNeed (dRFields d) = d.length := by
  induction d with
  | nil => rfl
  | cons kv t ih =>
    have h : rfieldsNeed (dRFields (kv :: t)) = 0 + 1 + rfieldsNeed (dRFields t) := rfl
    rw [h, ih]
    simp only [List.length_cons]
    omega

theorem rfieldsText_expose (f : RField) (t : List RField) (lvl : Nat)
    (tail : List Char) :
    rfieldsText (f :: t) lvl ++ tail
      = indentChars (2 * (lvl + 1)) ++ ('"' :: (f.key.data.flatMap jesc
          ++ '"' :: ':' :: ' ' :: (f.text ++ rfieldsTail t lvl tail))) := by
  cases t with
  | nil =>
    simp [rfieldsText, rfieldsTail, intercalate_single, jstr,
      List.append_assoc, String.toList]
  | cons g t2 =>
    simp only [rfieldsText, List.map_cons]
    rw [intercalate_cons2]
    simp [rfieldsTail, rfieldsText, jstr, List.append_assoc, String.toList]

theorem renderFlatObj_shape (kv : String × String) (t : List (String × String))
    (lvl : Nat) (rest : List Char) :
    renderFlatObj (kv :: t) lvl ++ rest
      = '{' :: '\n' :: (rfieldsText (dRFields (kv :: t)) lvl
          ++ '\n' :: (indentChars (2 * lvl) ++ '}' :: rest)) := by
  simp only [renderFlatObj, rfieldsText, dRFields, List.map_map]
  simp [List.append_assoc, Function.comp_def]

theorem pVal_brace_step (fuel : Nat) (rest1 : List Char) :
    pVal (fuel + 1) ('{' :: rest1)
      = (match jws rest1 with
         | '}' :: r2 => some (Json.obj [], r2)
         | t => (pObjFields fuel t).map (fun p => (Json.obj p.1, p.2))) := rfl

theorem pVal_bracket_step (fuel : Nat) (rest1 : List Char) :
    pVal (fuel + 1) ('[' :: rest1)
      = (match jws rest1 with
         | ']' :: r2 => some (Json.arr [], r2)
         | t => (pArrItems fuel t).map (fun p => (Json.arr p.1, p.2))) := rfl

theorem pVal_jws_congr2 (fuel : Nat) {X Y : List Char} (h : jws X = jws Y) :
    pVal fuel X = pVal fuel Y := by
  cases fuel with
  | zero => rfl
  | succ f => exact pVal_jws_congr f h

theorem pArrItems_jws_congr (fuel : Nat) {X Y : List Char}
    (h : jws X = jws Y) :
    pArrItems (fuel + 1) X = pArrItems (fuel + 1) Y := by
  simp only [pArrItems]
  rw [pVal_jws_congr2 fuel h]

theorem match_obj_default (fuel : Nat) (c : Char) (Z : List Char)
    (h : (c == '}') = false) :
    (match c :: Z with
     | '}' :: r2 => some (Json.obj [], r2)
     | t => (pObjFields fuel t).map (fun p => (Json.obj p.1, p.2)))
      = (pObjFields fuel (c :: Z)).map (fun p => (Json.obj p.1, p.2)) := by
  split
  · next r2 heq =>
      simp only [List.cons.injEq] at heq
      rw [heq.1] at h
      simp at h
  · rfl

theorem match_arr_default (fuel : Nat) (c : Char) (Z : List Char)
    (h : (c == ']') = false) :
    (match c :: Z with
     | ']' :: r2 => some (Json.arr [], r2)
     | t => (pArrItems fuel t).map (fun p => (Json.arr p.1, p.2)))
      = (pArrItems fuel (c :: Z)).map (fun p => (Json.arr p.1, p.2)) := by
  split
  · next r2 heq =>
      simp only [List.cons.injEq] at heq
      rw [heq.1] at h
      simp at h
  · rfl

theorem pVal_renderFlatObj (d : List (String × String)) (lvl : Nat)
    (hd : ∀ kv ∈ d, GoodStr kv.1 ∧ GoodStr kv.2) (fuel : Nat)
    (rest : List Char) :
    pVal (flatNeed d + fuel + 1) (renderFlatObj d lvl ++ rest)
      = some (dVal d, rest) := by
  cases d with
  | nil => rfl
  | cons kv t =>
    have hOk : ∀ f ∈ dRFields (kv :: t), RFieldOk f := by
      intro f hf
      rcases List.mem_map.mp hf with ⟨x, hx, rfl⟩
      exact rfieldOk_str x.1 x.2 (hd x hx).1 (hd x hx).2
    have e : flatNeed (kv :: t) + fuel + 1
        = (rfieldsNeed (dRFields (kv :: t)) + fuel + 1) + 1 := by
      rw [rfieldsNeed_dRFields]
      simp only [flatNeed]
      omega
    rw [renderFlatObj_shape, e, pVal_brace_step]
    have hcons : dRFields (kv :: t)
        = (⟨kv.1, jstr kv.2, Json.str kv.2, 0⟩ : RField) :: dRFields t := rfl
    have hq : jws ('\n' :: (rfieldsText (dRFields (kv :: t)) lvl
        ++ '\n' :: (indentChars (2 * lvl) ++ '}' :: rest)))
        = '"' :: (kv.1.data.flatMap jesc ++ '"' :: ':' :: ' ' :: (jstr kv.2
            ++ rfieldsTail (dRFields t) lvl
              ('\n' :: (indentChars (2 * lvl) ++ '}' :: rest)))) := by
      rw [jws_nl, hcons, rfieldsText_expose, jws_indent,
        jws_cons_not _ (by decide)]
    rw [hq, match_obj_default _ _ _ (by decide)]
    have hX : jws ('"' :: (kv.1.data.flatMap jesc ++ '"' :: ':' :: ' ' :: (jstr kv.2
        ++ rfieldsTail (dRFields t) lvl
          ('\n' :: (indentChars (2 * lvl) ++ '}' :: rest)))))
        = jws (rfieldsText (dRFields (kv :: t)) lvl
            ++ '\n' :: (indentChars (2 * lvl) ++ '}' :: rest)) := by
      rw [jws_cons_not _ (by decide), ← hq, jws_nl]
    rw [pObjFields_chain lvl (dRFields (kv :: t)) (by simp [dRFields]) hOk
      fuel rest _ hX]
    simp [dVal, dRFields, List.map_map, Function.comp_def]

theorem sumsText_expose (d : List (String × String))
    (t : List (List (String × String))) (lvl : Nat) (tail : List Char) :
    sumsText (d :: t) lvl ++ tail
      = indentChars (2 * (lvl + 1))
          ++ (renderFlatObj d (lvl + 1) ++ sumsTail t lvl tail) := by
  cases t with
  | nil =>
    simp [sumsText, sumsTail, intercalate_single, List.append_assoc]
  | cons g t2 =>
    simp only [sumsText, List.map_cons]
    rw [intercalate_cons2]
    simp [sumsTail, sumsText, List.append_assoc]

theorem renderSummary_shape (d : List (String × String))
    (t : List (List (String × String))) (lvl : Nat) (rest : List Char) :
    renderSummary (d :: t) lvl ++ rest
      = '[' :: '\n' :: (sumsText (d :: t) lvl
          ++ '\n' :: (indentChars (2 * lvl) ++ ']' :: rest)) := by
  simp only [renderSummary, sumsText]
  simp [List.append_assoc]

theorem renderFlatObj_head (d : List (String × String)) (lvl : Nat) :
    ∃ W, renderFlatObj d lvl = '{' :: W := by
  cases d with
  | nil => exact ⟨['}'], rfl⟩
  | cons kv t => exact ⟨_, rfl⟩

theorem pArrItems_step (fuel : Nat) (cs : List Char) :
    pArrItems (fuel + 1) cs
      = (do
          let (v, r1) ← pVal fuel cs
          (match jws r1 with
           | ',' :: r2 => do
             let (vs, r3) ← pArrItems fuel r2
             pure (v :: vs, r3)
           | ']' :: r2 => pure ([v], r2)
           | _ => none)) := rfl

theorem pArrItems_chain (lvl : Nat) :
    ∀ (l : List (List (String × String))), l ≠ [] →
      (∀ d ∈ l, ∀ kv ∈ d, GoodStr kv.1 ∧ GoodStr kv.2) →
    ∀ (fuel : Nat) (rest X : List Char),
      jws X = jws (sumsText l lvl ++ '\n' :: (indentChars (2 * lvl) ++ ']' :: rest)) →
      pArrItems (sumsNeed l + fuel + 1) X = some (l.map dVal, rest) := by
  intro l
  induction l with
  | nil => intro h; exact absurd rfl h
  | cons d t ih =>
    intro _ hok fuel rest X hX
    have hd := hok d (by simp)
    cases t with
    | nil =>
      have harith : sumsNeed [d] + fuel + 1 = (flatNeed d + fuel + 1) + 1 := by
        simp only [sumsNeed]
        omega
      rw [harith, pArrItems_step]
      have hY : jws X = jws (renderFlatObj d (lvl + 1)
          ++ sumsTail [] lvl ('\n' :: (indentChars (2 * lvl) ++ ']' :: rest))) := by
        rw [hX, sumsText_expose, jws_indent]
      rw [pVal_jws_congr2 _ hY]
      rw [pVal_renderFlatObj d (lvl + 1) hd fuel _]
      simp only [Option.bind_eq_bind, Option.some_bind, sumsTail]
      rw [jws_nl, jws_indent, jws_cons_not _ (by decide)]
      simp
    | cons g t2 =>
      have harith : sumsNeed (d :: g :: t2) + fuel + 1
          = (flatNeed d + (sumsNeed (g :: t2) + fuel) + 1) + 1 := by
        simp only [sumsNeed]
        omega
      rw [harith, pArrItems_step]
      have hY : jws X = jws (renderFlatObj d (lvl + 1)
          ++ sumsTail (g :: t2) lvl
            ('\n' :: (indentChars (2 * lvl) ++ ']' :: rest))) := by
        rw [hX, sumsText_expose, jws_indent]
      rw [pVal_jws_congr2 _ hY]
      rw [pVal_renderFlatObj d (lvl + 1) hd (sumsNeed (g :: t2) + fuel) _]
      simp only [Option.bind_eq_bind, Option.some_bind, sumsTail]
      rw [jws_cons_not _ (by decide)]
      simp only []
      have hrec := ih (by simp) (fun x hx => hok x (by simp [hx]))
        (flatNeed d + fuel) rest
        ('\n' :: (sumsText (g :: t2) lvl
          ++ '\n' :: (indentChars (2 * lvl) ++ ']' :: rest)))
        (by rw [jws_nl])
      have e2 : flatNeed d + (sumsNeed (g :: t2) + fuel) + 1
          = sumsNeed (g :: t2) + (flatNeed d + fuel) + 1 := by omega
      rw [e2, hrec]
      simp

theorem pVal_renderSummary (sums : List (List (String × String))) (lvl : Nat)
    (hs : ∀ d ∈ sums, ∀ kv ∈ d, GoodStr kv.1 ∧ GoodStr kv.2)
    (fuel : Nat) (rest : List Char) :
    pVal (sumsNeed sums + 1 + fuel + 1) (renderSummary sums lvl ++ rest)
      = some (Json.arr (sums.map dVal), rest) := by
  cases sums with
  | nil => rfl
  | cons d t =>
    have e : sumsNeed (d :: t) + 1 + fuel + 1
        = ((sumsNeed (d :: t) + fuel + 1)) + 1 := by omega
    rw [renderSummary_shape, e, pVal_bracket_step]
    obtain ⟨W, hW⟩ := renderFlatObj_head d (lvl + 1)
    have hq : jws ('\n' :: (sumsText (d :: t) lvl
        ++ '\n' :: (indentChars (2 * lvl) ++ ']' :: rest)))
        = '{' :: (W ++ sumsTail t lvl
            ('\n' :: (indentChars (2 * lvl) ++ ']' :: rest))) := by
      rw [jws_nl, sumsText_expose, jws_indent, hW, List.cons_append,
        jws_cons_not _ (by decide)]
    rw [hq, match_arr_default _ _ _ (by decide)]
    have hX : jws ('{' :: (W ++ sumsTail t lvl
        ('\n' :: (indentChars (2 * lvl) ++ ']' :: rest))))
        = jws (sumsText (d :: t) lvl
            ++ '\n' :: (indentChars (2 * lvl) ++ ']' :: rest)) := by
      rw [jws_cons_not _ (by decide), ← hq, jws_nl]
    rw [pArrItems_chain lvl (d :: t) (by simp) hs fuel rest _ hX]
    simp

theorem rfieldOk_opt (k : String) (o : Option String) (hk : GoodStr k) :
    GoodOpt o →
    RFieldOk ⟨k, optStrRender o,
      match o with
      | none => Json.null
      | some s => Json.str s, 0⟩ := by
  cases o with
  | none => exact fun _ => rfieldOk_null k hk
  | some s => exact fun ho => rfieldOk_str k s hk ho

theorem rfieldOk_summary (o : Option (List (List (String × String)))) :
    GoodSummary o →
    RFieldOk ⟨"violations_summary",
      match o with
      | none => nullChars
      | some sums => renderSummary sums 1,
      match o with
      | none => Json.null
      | some sums => Json.arr (sums.map dVal),
      sumNeedV o⟩ := by
  cases o with
  | none => exact fun _ => rfieldOk_null "violations_summary" (by decide)
  | some sums =>
    intro ho
    refine ⟨?_, fun fuel rest _ => ?_⟩
    · show GoodStr "violations_summary"
      decide
    · show pVal (sumsNeed sums + 1 + fuel + 1) (renderSummary sums 1 ++ rest)
        = some (Json.arr (sums.map dVal), rest)
      exact pVal_renderSummary sums 1 ho fuel rest

theorem eventRFields_ok (e : AuditEvent) (he : GoodEvent e) :
    ∀ f ∈ eventRFields e, RFieldOk f := by
  obtain ⟨h1, h2, h3, h4, h5, h6, h7, h8, h9⟩ := he
  intro f hf
  simp only [eventRFields, List.mem_cons, List.not_mem_nil, or_false] at hf
  rcases hf with rfl | rfl | rfl | rfl | rfl | rfl | rfl | rfl | rfl | rfl
    | rfl | rfl | rfl | rfl | rfl
  · exact rfieldOk_str "event_id" e.event_id (by decide) h1
  · exact rfieldOk_str "timestamp" e.timestamp (by decide) h2
  · exact rfieldOk_str "repo_name" e.repo_name (by decide) h3
  · exact rfieldOk_int "pr_number" e.pr_number (by decide)
  · exact rfieldOk_str "commit_hash" e.commit_hash (by decide) h4
  · exact rfieldOk_int "violation_count" e.violation_count (by decide)
  · exact rfieldOk_int "critical_count" e.critical_count (by decide)
  · exact rfieldOk_int "high_count" e.high_count (by decide)
  · exact rfieldOk_str "enforcement_action" e.enforcement_action (by decide) h5
  · exact rfieldOk_bool "blocked" e.blocked (by decide)
  · exact rfieldOk_bool "override_applied" e.override_applied (by decide)
  · exact rfieldOk_opt "override_reason" e.override_reason (by decide) h6
  · exact rfieldOk_opt "pr_url" e.pr_url (by decide) h7
  · exact rfieldOk_opt "scan_id" e.scan_id (by decide) h8
  · exact rfieldOk_summary e.violations_summary h9

theorem eventRFields_text (e : AuditEvent) :
    (eventRFields e).map (fun f => (f.key, f.text)) = eventFieldsRendered e := rfl

theorem eventRFields_map (e : AuditEvent) :
    Json.obj ((eventRFields e).map (fun f => (f.key, f.val))) = eventJson e := rfl

theorem event_shape (e : AuditEvent) (rest : List Char) :
    (event_to_json e).data ++ rest
      = '{' :: '\n' :: (rfieldsText (eventRFields e) 0
          ++ '\n' :: (indentChars 0 ++ '}' :: rest)) := by
  have hmap : (eventFieldsRendered e).map (fun kv =>
      ' ' :: ' ' :: (jstr kv.1 ++ ':' :: ' ' :: kv.2))
      = (eventRFields e).map (fun f =>
          ' ' :: ' ' :: (jstr f.key ++ ':' :: ' ' :: f.text)) := by
    rw [← eventRFields_text]
    simp [List.map_map, Function.comp_def]
  simp only [rfieldsText, event_to_json, indentChars, List.replicate]
  simp [List.append_assoc]
  rw [hmap]

theorem rfieldsText_quote (l : List RField) (hl : l ≠ []) (lvl : Nat)
    (tail : List Char) :
    ∃ W, jws (rfieldsText l lvl ++ tail) = '"' :: W := by
  cases l with
  | nil => exact absurd rfl hl
  | cons f t =>
    exact ⟨f.key.data.flatMap jesc ++ '"' :: ':' :: ' ' :: (f.text
        ++ rfieldsTail t lvl tail),
      by rw [rfieldsText_expose, jws_indent]; exact jws_cons_not _ (by decide)⟩

theorem pVal_event (e : AuditEvent) (he : GoodEvent e) (fuel : Nat)
    (rest : List Char) :
    pVal (needE e + fuel + 1) ((event_to_json e).data ++ rest)
      = some (eventJson e, rest) := by
  rw [event_shape]
  have e1 : needE e + fuel + 1
      = (rfieldsNeed (eventRFields e) + fuel + 1) + 1 := by
    simp only [needE]
    omega
  rw [e1, pVal_brace_step]
  obtain ⟨W, hq0⟩ := rfieldsText_quote (eventRFields e) (by simp [eventRFields])
    0 ('\n' :: (indentChars 0 ++ '}' :: rest))
  have hq : jws ('\n' :: (rfieldsText (eventRFields e) 0
      ++ '\n' :: (indentChars 0 ++ '}' :: rest))) = '"' :: W := by
    rw [jws_nl]
    exact hq0
  rw [hq, match_obj_default _ _ _ (by decide)]
  have hX : jws ('"' :: W)
      = jws (rfieldsText (eventRFields e) 0
          ++ '\n' :: (indentChars 0 ++ '}' :: rest)) := by
    rw [jws_cons_not _ (by decide), ← hq0]
  rw [pObjFields_chain 0 (eventRFields e) (by simp [eventRFields])
    (eventRFields_ok e he) fuel rest _ hX]
  rw [Option.map_some']
  simp only []
  rw [eventRFields_map]

theorem jstr_len (s : String) : 2 ≤ (jstr s).length := by
  simp only [jstr, List.length_cons, List.length_append]
  omega

theorem rfieldsText_len (lvl : Nat) : ∀ l : List RField,
    (∀ f ∈ l, f.need ≤ f.text.length) →
    rfieldsNeed l ≤ (rfieldsText l lvl).length := by
  intro l
  induction l with
  | nil =>
    intro _
    simp [rfieldsNeed, rfieldsText, intercalate_nil]
  | cons f t ih =>
    intro h
    have hf := h f (by simp)
    have hj := jstr_len f.key
    cases t with
    | nil =>
      simp only [rfieldsText, List.map_cons, List.map_nil, intercalate_single,
        rfieldsNeed, List.length_append, List.length_cons]
      omega
    | cons g t2 =>
      have ht := ih (fun x hx => h x (by simp [hx]))
      have hsh : rfieldsText (f :: g :: t2) lvl
          = (indentChars (2 * (lvl + 1)) ++ jstr f.key ++ ':' :: ' ' :: f.text)
            ++ ([',', '\n'] ++ rfieldsText (g :: t2) lvl) := by
        simp only [rfieldsText, List.map_cons]
        rw [intercalate_cons2]
        simp [List.append_assoc]
      rw [hsh]
      simp only [rfieldsNeed, List.length_append, List.length_cons]
      simp only [rfieldsNeed] at ht
      omega

theorem renderFlatObj_len (d : List (String × String)) (lvl : Nat) :
    d.length + 2 ≤ (renderFlatObj d lvl).length := by
  cases d with
  | nil => simp [renderFlatObj]
  | cons kv t =>
    have h := rfieldsText_len lvl (dRFields (kv :: t)) (by
      intro f hf
      rcases List.mem_map.mp hf with ⟨x, hx, rfl⟩
      simp)
    rw [rfieldsNeed_dRFields] at h
    have hlen := congrArg List.length (renderFlatObj_shape kv t lvl [])
    simp only [List.length_append, List.length_cons, List.append_nil] at hlen
    omega

theorem sumsText_len (lvl : Nat) : ∀ sums,
    sumsNeed sums ≤ (sumsText sums lvl).length := by
  intro sums
  induction sums with
  | nil => simp [sumsNeed, sumsText, intercalate_nil]
  | cons d t ih =>
    have hd := renderFlatObj_len d (lvl + 1)
    cases t with
    | nil =>
      simp only [sumsText, List.map_cons, List.map_nil, intercalate_single,
        sumsNeed, flatNeed, List.length_append]
      omega
    | cons g t2 =>
      have hsh : sumsText (d :: g :: t2) lvl
          = (indentChars (2 * (lvl + 1)) ++ renderFlatObj d (lvl + 1))
            ++ ([',', '\n'] ++ sumsText (g :: t2) lvl) := by
        simp only [sumsText, List.map_cons]
        rw [intercalate_cons2]
        simp [List.append_assoc]
      rw [hsh]
      simp only [sumsNeed, flatNeed, List.length_append, List.length_cons]
      simp only [sumsNeed, flatNeed] at ih
      omega

theorem renderSummary_len (sums : List (List (String × String))) (lvl : Nat) :
    sumsNeed sums + 1 ≤ (renderSummary sums lvl).length := by
  cases sums with
  | nil => simp [sumsNeed, renderSummary]
  | cons d t =>
    have h := sumsText_len lvl (d :: t)
    have hlen := congrArg List.length (renderSummary_shape d t lvl [])
    simp only [List.length_append, List.length_cons, List.append_nil] at hlen
    omega

theorem eventRFields_need_le (e : AuditEvent) :
    ∀ f ∈ eventRFields e, f.need ≤ f.text.length := by
  intro f hf
  simp only [eventRFields, List.mem_cons, List.not_mem_nil, or_false] at hf
  rcases hf with rfl | rfl | rfl | rfl | rfl | rfl | rfl | rfl | rfl | rfl
    | rfl | rfl | rfl | rfl | rfl
  · simp
  · simp
  · simp
  · simp
  · simp
  · simp
  · simp
  · simp
  · simp
  · simp
  · simp
  · simp
  · simp
  · simp
  · cases hvs : e.violations_summary with
    | none => simp [sumNeedV]
    | some sums =>
      simp only [sumNeedV]
      exact renderSummary_len sums 1

theorem needE_le (e : AuditEvent) :
    needE e + 1 ≤ 2 * (event_to_json e).data.length + 2 := by
  have h := rfieldsText_len 0 (eventRFields e) (eventRFields_need_le e)
  have hlen := congrArg List.length (event_shape e [])
  simp only [List.length_append, List.length_cons, List.append_nil,
    indentChars, List.replicate, List.length_nil] at hlen
  simp only [needE]
  omega

theorem loads_event (e : AuditEvent) (he : GoodEvent e) :
    loads (event_to_json e) = some (eventJson e) := by
  have hb := needE_le e
  simp only [loads]
  have htl : (event_to_json e).toList = (event_to_json e).data := rfl
  rw [htl]
  have heq : 2 * (event_to_json e).data.length + 2
      = needE e + (2 * (event_to_json e).data.length + 2 - (needE e + 1)) + 1 := by
    omega
  rw [heq]
  have hp := pVal_event e he
    (2 * (event_to_json e).data.length + 2 - (needE e + 1)) []
  rw [List.append_nil] at hp
  rw [hp]
  rfl

theorem asStrPairs_obj (d : List (String × String)) :
    asStrPairs (Json.obj (d.map (fun kv => (kv.1, Json.str kv.2))))
      = some d := by
  induction d with
  | nil => rfl
  | cons kv t ih =>
    simp only [List.map_cons, asStrPairs, List.foldr_cons] at *
    rw [ih]

theorem sumFold_map (sums : List (List (String × String))) :
    sumFold (sums.map (fun d =>
      Json.obj (d.map (fun kv => (kv.1, Json.str kv.2))))) = some sums := by
  induction sums with
  | nil => rfl
  | cons d t ih =>
    rw [List.map_cons]
    have hstep : sumFold ((Json.obj (d.map (fun kv => (kv.1, Json.str kv.2))))
        :: (t.map (fun d => Json.obj (d.map (fun kv => (kv.1, Json.str kv.2))))))
        = (match asStrPairs (Json.obj (d.map (fun kv => (kv.1, Json.str kv.2)))),
            sumFold (t.map (fun d =>
              Json.obj (d.map (fun kv => (kv.1, Json.str kv.2))))) with
           | some d2, some r => some (d2 :: r)
           | _, _ => none) := rfl
    rw [hstep, ih, asStrPairs_obj]

theorem create_eventJson (e : AuditEvent) :
    create_event_from_dict (eventJson e) = some e := by
  obtain ⟨eid, ts, rn, pn, ch, vc, cc, hcn, ea, bl, oa, orr, pu, si, vs⟩ := e
  simp only [eventJson]
  rcases orr with _ | r1 <;> rcases pu with _ | r2 <;> rcases si with _ | r3 <;>
    rcases vs with _ | sums <;>
    simp [create_event_from_dict, reqStr, reqInt, reqBool, optStr, optSummary,
      jGet, List.find?, sumFold_map]

/-- C7 (amended): writing any sequence of audit events whose string content
is printable ASCII without braces, then replaying the durable store,
reconstructs exactly the written events, in order, with identical fields. -/
theorem claim_C7 (es : List AuditEvent) (hes : ∀ e ∈ es, GoodEvent e) :
    load_audit_logs (write_events { events := [], store := "" } es).store = es := by
  simp only [load_audit_logs]
  have hstore := write_events_store es { events := [], store := "" }
  rw [show ((write_events { events := [], store := "" } es).store).toList
      = ((write_events { events := [], store := "" } es).store).data from rfl,
    hstore]
  rw [show ("" : String).data = [] from rfl, List.nil_append]
  simp only [extractObjects]
  rw [extract_chain es hes []]
  simp only [List.reverse_nil, List.nil_append]
  have haux : ∀ l : List AuditEvent, (∀ e ∈ l, GoodEvent e) →
      (l.map (fun e => (event_to_json e).data)).filterMap
        (fun obj => (loads (String.mk obj)).bind create_event_from_dict) = l := by
    intro l
    induction l with
    | nil => intro _; rfl
    | cons x t ih =>
      intro hl
      have hx := hl x (by simp)
      have ht := fun y hy => hl y (List.mem_cons_of_mem _ hy)
      simp only [List.map_cons, List.filterMap_cons]
      rw [string_eta, loads_event x hx, Option.some_bind, create_eventJson x,
        ih ht]
  exact haux es hes

set_option maxRecDepth 100000 in

/-- C7 counterexample: a single written event whose repository name contains
an unbalanced brace is lost on replay — the brace-counting extractor never
sees the count return to zero, so the loader reconstructs 0 events, not 1. -/
theorem claim_C7_counterexample :
    load_audit_logs
        (write_events { events := [], store := "" } [bracedEvent]).store = []
      ∧ [bracedEvent] ≠ ([] : List AuditEvent) := by
  constructor
  · rfl
  · decide

/-- C7 witness: the amended round trip at a concrete well-behaved event. -/
theorem claim_C7_witness :
    (∀ e ∈ [goodEvent], GoodEvent e)
      ∧ load_audit_logs
          (write_events { events := [], store := "" } [goodEvent]).store
        = [goodEvent] :=
  ⟨by decide, claim_C7 [goodEvent] (by decide)⟩

end Guardrails
